import Mathlib

/-!
Verification of the simple-blog-engine core against its specification.

The JavaScript sources are shallowly embedded: pure functions become Lean
functions, JavaScript values become the inductive type `JsV`, regex-driven
string rewriting becomes explicit character-list scanners with the same
match semantics, and the mutually recursive template pipeline is driven by
an explicit fuel parameter (the JavaScript recursion can genuinely diverge
on adversarial data, so a total function must be fuel-indexed; running out
of fuel is reported as `none`).

Modelling conventions, used throughout:
- JavaScript `undefined` is `Option.none`; `null` is `JsV.vNull`.
- Numbers are modelled as integers (no claim involves fractional values).
- Object identity (reference equality) is modelled as structural
  inequality for distinct object/array operands; the data flowing through
  the engine is built from literals without aliasing, where this agrees
  with the source semantics except where explicitly noted.
- Host I/O (file reads, directory listings, `Date` parsing, locale
  formatting, the external markdown parser) is passed in as function
  parameters, mirroring the delegation boundaries of the code.
-/

namespace Blog

/-! ## Character-list utilities (shared by the scanners) -/

/-- JavaScript whitespace test restricted to the ASCII whitespace actually
occurring in templates (space, tab, newline, carriage return). -/
def isWsChar (c : Char) : Bool :=
  c = ' ' || c = '\t' || c = '\n' || c = '\r'

/-- Trim whitespace from both ends, like `String.prototype.trim`. -/
def trimL (l : List Char) : List Char :=
  ((l.dropWhile isWsChar).reverse.dropWhile isWsChar).reverse

/-- Split on a separator character; `"".split` yields one empty piece,
matching `"".split('.') === [""]` in JavaScript. -/
def splitOnCh (sep : Char) : List Char → List (List Char)
  | [] => [[]]
  | c :: rest =>
    if c = sep then [] :: splitOnCh sep rest
    else
      match splitOnCh sep rest with
      | t :: ts => (c :: t) :: ts
      | [] => [[c]]

/-- Split a (pre-trimmed) character list on runs of whitespace, like
`trimmed.split(/\s+/)` on a string with no leading/trailing whitespace. -/
def splitWsRuns : List Char → List (List Char)
  | [] => []
  | c :: rest =>
    if isWsChar c then splitWsRuns rest
    else
      match splitWsRuns rest with
      | [] => [[c]]
      | t :: ts =>
        match rest with
        | [] => [[c]]
        | c2 :: _ => if isWsChar c2 then [c] :: t :: ts else (c :: t) :: ts

/-- If `pat` is a leading prefix of `l`, return the remainder. -/
def afterLead? : List Char → List Char → Option (List Char)
  | [], l => some l
  | _ :: _, [] => none
  | p :: ps, c :: cs => if p = c then afterLead? ps cs else none

/-- Split at the first occurrence of `pat`: `l = pre ++ pat ++ post`. -/
def splitFirst (pat : List Char) : List Char → Option (List Char × List Char)
  | [] => none
  | c :: rest =>
    match afterLead? pat (c :: rest) with
    | some post => some ([], post)
    | none =>
      match splitFirst pat rest with
      | some (pre, post) => some (c :: pre, post)
      | none => none

/-- Does `pat` occur as a contiguous sublist of `l`? -/
def hasSub (pat : List Char) : List Char → Bool
  | [] => pat.isEmpty
  | c :: rest => (afterLead? pat (c :: rest)).isSome || hasSub pat rest

/-- Replace the first occurrence of `pat` (like `s.replace('x','y')` with a
string pattern, which replaces only the first occurrence). -/
def replaceFirstSub (pat rep : List Char) (l : List Char) : List Char :=
  match splitFirst pat l with
  | some (pre, post) => pre ++ rep ++ post
  | none => l

/-- Replace every occurrence of a character (like a `/x/g` regex). -/
def replaceAllCh (a b : Char) (l : List Char) : List Char :=
  l.map (fun c => if c = a then b else c)

/-! ## JavaScript values -/

/-- JavaScript values as they occur in the engine: strings, numbers
(integers), booleans, null, arrays, plain objects (association lists with
unique keys, maintained by construction), and zero-argument functions
modelled by the value they return. -/
inductive JsV where
  | vStr (s : String)
  | vNum (n : Int)
  | vBool (b : Bool)
  | vNull
  | vArr (elems : List JsV)
  | vObj (fields : List (String × JsV))
  | vFun (ret : JsV)

open JsV

/-- JavaScript truthiness. -/
def truthy : JsV → Bool
  | vStr s => !s.data.isEmpty
  | vNum n => n ≠ 0
  | vBool b => b
  | vNull => false
  | vArr _ => true
  | vObj _ => true
  | vFun _ => true

/-- Truthiness of a possibly-undefined value. -/
def truthyOpt : Option JsV → Bool
  | some v => truthy v
  | none => false

/-- First-match association lookup (object keys are unique by
construction, so this is the JavaScript property lookup). -/
def lookupField : List (String × JsV) → String → Option JsV
  | [], _ => none
  | (k0, v0) :: rest, k => if k0 = k then some v0 else lookupField rest k

/-- Set a property like a JavaScript assignment or object literal:
overwrite in place if the key exists, else append. -/
def setField : List (String × JsV) → String → JsV → List (String × JsV)
  | [], k, v => [(k, v)]
  | (k0, v0) :: rest, k, v =>
    if k0 = k then (k, v) :: rest else (k0, v0) :: setField rest k v

/-- Build an object from a literal entry sequence, later entries winning
(JavaScript object-literal semantics, including spreads). -/
def mkObjLit (entries : List (String × JsV)) : List (String × JsV) :=
  entries.foldl (fun acc e => setField acc e.1 e.2) []

/-- Decimal value of a digit list. -/
def digitsToNat (l : List Char) : Nat :=
  l.foldl (fun acc c => acc * 10 + (c.toNat - '0'.toNat)) 0

/-- A canonical array-index key: digits only, no leading zero except "0"
(JavaScript array indexing by property name is canonical-only). -/
def natKey? (seg : List Char) : Option Nat :=
  match seg with
  | [] => none
  | c :: rest =>
    if seg.all (fun ch => ch.isDigit) then
      if c = '0' ∧ rest ≠ [] then none
      else some (digitsToNat seg)
    else none

/-- Property access `v[seg]`. Prototype methods of primitives are not
modelled (no claim exercises them); array/string `length` and canonical
index keys are. -/
def getProp : JsV → List Char → Option JsV
  | vObj fs, seg => lookupField fs (String.mk seg)
  | vArr xs, seg =>
    if seg = ['l','e','n','g','t','h'] then some (vNum (Int.ofNat xs.length))
    else
      match natKey? seg with
      | some i => xs.get? i
      | none => none
  | vStr s, seg =>
    if seg = ['l','e','n','g','t','h'] then some (vNum (Int.ofNat s.data.length))
    else
      match natKey? seg with
      | some i => (s.data.get? i).map (fun c => vStr (String.mk [c]))
      | none => none
  | _, _ => none

/-- `getNestedValue(obj, path)` from templateEngine.js:
`path.split('.').reduce((prev, curr) => prev ? prev[curr] : undefined, obj)`. -/
def getNestedValue (d : JsV) (path : List Char) : Option JsV :=
  (splitOnCh '.' path).foldl
    (fun prev seg =>
      match prev with
      | some v => if truthy v then getProp v seg else none
      | none => none)
    (some d)

/-! ## Stringification and equality -/

mutual

/-- JavaScript `String(v)` coercion for the modelled values. Arrays join
their elements with commas (null rendering as empty), objects print as
"[object Object]"; the source text of a function is not modelled. -/
def jsValueToString : JsV → String
  | vStr s => s
  | vNum n => toString n
  | vBool b => if b then "true" else "false"
  | vNull => "null"
  | vArr xs => String.intercalate "," (jsArrParts xs)
  | vObj _ => "[object Object]"
  | vFun _ => "[function]"

/-- Element strings for `Array.prototype.join`, where null renders empty. -/
def jsArrParts : List JsV → List String
  | [] => []
  | vNull :: xs => "" :: jsArrParts xs
  | x :: xs => jsValueToString x :: jsArrParts xs

end

/-- JavaScript strict equality `===` on the modelled values. Two distinct
object/array/function literals are never identical; aliasing is not
modelled, so object operands compare unequal. -/
def jsStrictEq : JsV → JsV → Bool
  | vStr s, vStr t => s = t
  | vNum n, vNum m => n = m
  | vBool b, vBool c => b = c
  | vNull, vNull => true
  | _, _ => false

/-- `ToNumber` for primitive values; `none` models NaN. String parsing is
restricted to optionally-signed decimal integers (the engine never feeds
fractional numerals through this path in the claims under study). -/
def toNumForEq : JsV → Option Int
  | vNum n => some n
  | vBool b => some (if b then 1 else 0)
  | vNull => some 0
  | vStr s =>
    let t := trimL s.data
    match t with
    | [] => some 0
    | '-' :: rest =>
      if rest ≠ [] ∧ rest.all (fun c => c.isDigit) then
        some (-(Int.ofNat (digitsToNat rest)))
      else none
    | '+' :: rest =>
      if rest ≠ [] ∧ rest.all (fun c => c.isDigit) then
        some (Int.ofNat (digitsToNat rest))
      else none
    | _ =>
      if t.all (fun c => c.isDigit) then some (Int.ofNat (digitsToNat t))
      else none
  | _ => none

/-- JavaScript loose equality `==` on the modelled values. Same-type
comparisons are strict; mixed primitive comparisons go through `ToNumber`.
Object-to-primitive coercion is not modelled (objects compare unequal, in
line with the no-aliasing convention above). -/
def jsLooseEq (a b : JsV) : Bool :=
  match a, b with
  | vStr s, vStr t => s = t
  | vNull, vNull => true
  | vNull, _ => false
  | _, vNull => false
  | vObj _, _ => false
  | _, vObj _ => false
  | vArr _, _ => false
  | _, vArr _ => false
  | vFun _, _ => false
  | _, vFun _ => false
  | x, y =>
    match toNumForEq x, toNumForEq y with
    | some n, some m => n = m
    | _, _ => false

end Blog

namespace Blog

open JsV

/-! ## Template directive engine (templateEngine.js)

The three regex passes of `processTemplate` are modelled by left-to-right
scanners with the exact matching discipline of a global
`String.prototype.replace`: at each position the full pattern is tried;
on a match the replacement is emitted and scanning resumes after the
matched text (replacements are never rescanned within the same pass); on
a failure one character is copied and scanning moves on. -/

/-- The opening delimiter `{{`. -/
def openPat : List Char := ['\x7b', '\x7b']

/-- The closing delimiter `}}`. -/
def closePat : List Char := ['\x7d', '\x7d']

/-- Literal text of `{{#each`. -/
def openEachPat : List Char := '\x7b' :: '\x7b' :: ['#', 'e', 'a', 'c', 'h']

/-- Literal text of `{{/each}}`. -/
def closeEachPat : List Char :=
  '\x7b' :: '\x7b' :: '/' :: 'e' :: 'a' :: 'c' :: 'h' :: ['\x7d', '\x7d']

/-- Literal text of `{{#if`. -/
def openIfPat : List Char := '\x7b' :: '\x7b' :: ['#', 'i', 'f']

/-- Literal text of `{{/if}}`. -/
def closeIfPat : List Char :=
  '\x7b' :: '\x7b' :: '/' :: 'i' :: 'f' :: ['\x7d', '\x7d']

/-- Literal text of `{{else}}`. -/
def elsePat : List Char :=
  '\x7b' :: '\x7b' :: 'e' :: 'l' :: 's' :: 'e' :: ['\x7d', '\x7d']

/-- Try the pattern `\{\{#<kw>\s+([^}]+)\}\}` at the head of `l`. On
success return the raw capture (whitespace prefix included; every use
site trims it, matching the source) and the remainder after `}}`. The
`\s+[^}]+` pair matches exactly when the run of non-brace characters
after the keyword starts with whitespace and has length at least two
(regex backtracking can lend the final whitespace character to the
mandatory `[^}]+`). -/
def blockOpenAt (kw : List Char) (l : List Char) :
    Option (List Char × List Char) :=
  match afterLead? kw l with
  | none => none
  | some r1 =>
    let run := r1.takeWhile (fun c => c ≠ '\x7d')
    match run with
    | [] => none
    | c0 :: restRun =>
      if isWsChar c0 && !restRun.isEmpty then
        match afterLead? closePat (r1.drop run.length) with
        | none => none
        | some r3 => some (run, r3)
      else none

/-- Try the full `{{#each ...}}...{{/each}}` pattern (lazy body) at the
head of `l`; return (raw path capture, body, remainder after the match). -/
def eachOpenAt (l : List Char) :
    Option (List Char × List Char × List Char) :=
  match blockOpenAt openEachPat l with
  | none => none
  | some (run, r3) =>
    match splitFirst closeEachPat r3 with
    | none => none
    | some (content, after) => some (run, content, after)

/-- Try the full `{{#if ...}}...({{else}}...)?{{/if}}` pattern at the head
of `l`; return (raw condition capture, if-branch, else-branch, remainder).
The body is the lazy stretch up to the first `{{/if}}`; an `{{else}}`
inside that stretch splits it, mirroring how the optional group of the
source regex is preferred whenever it can complete. -/
def ifOpenAt (l : List Char) :
    Option (List Char × List Char × List Char × List Char) :=
  match blockOpenAt openIfPat l with
  | none => none
  | some (run, r3) =>
    match splitFirst closeIfPat r3 with
    | none => none
    | some (body, after) =>
      match splitFirst elsePat body with
      | some (ifC, elseC) => some (run, ifC, elseC, after)
      | none => some (run, body, [], after)

/-- Try the variable pattern `\{\{([^#/][^}]*)\}\}` at the head of `l`;
return (raw key capture, remainder after the match). -/
def varAt (l : List Char) : Option (List Char × List Char) :=
  match afterLead? openPat l with
  | none => none
  | some r1 =>
    match r1 with
    | [] => none
    | c1 :: r2 =>
      if c1 ≠ '#' && c1 ≠ '/' then
        let run := r2.takeWhile (fun c => c ≠ '\x7d')
        match afterLead? closePat (r2.drop run.length) with
        | none => none
        | some after => some (c1 :: run, after)
      else none

/-- Operand resolution for binary conditions:
`getNestedValue(data, tok) || tok` — any falsy resolution (not only a
missing path) falls back to the literal token text. -/
def resolveOperand (d : JsV) (tok : List Char) : JsV :=
  match getNestedValue d tok with
  | some v => if truthy v then v else vStr (String.mk tok)
  | none => vStr (String.mk tok)

/-- Condition evaluation of `processIfBlocks`. A condition without a
literal space character is a truthiness test of the resolved path. With a
space it is split on whitespace runs into tokens; with fewer than three
tokens the source dereferences `undefined` and the thrown `TypeError` is
caught, yielding false; otherwise the four comparison operators are
recognised and any other middle token falls into the `default` case,
which re-tests the truthiness of the whole condition as a path. -/
def evalCondition (d : JsV) (condRaw : List Char) : Bool :=
  let cond := trimL condRaw
  if !(cond.contains ' ') then truthyOpt (getNestedValue d cond)
  else
    match splitWsRuns cond with
    | left :: op :: right :: _ =>
      let lv := resolveOperand d left
      let rv := resolveOperand d right
      if op = ['=', '='] then jsLooseEq lv rv
      else if op = ['=', '=', '='] then jsStrictEq lv rv
      else if op = ['!', '='] then !(jsLooseEq lv rv)
      else if op = ['!', '=', '='] then !(jsStrictEq lv rv)
      else truthyOpt (getNestedValue d cond)
    | _ => false

/-- The index `items.indexOf(item)` as seen by the element at position
`i`: the first position whose element is strictly equal (`===`), which
for duplicated primitive values is the first duplicate, and for
(alias-free) object elements is `i` itself. -/
def jsIndexOf (xs : List JsV) (i : Nat) : Nat :=
  match xs.get? i with
  | none => i
  | some xi =>
    match (xs.take i).findIdx? (fun y => jsStrictEq y xi) with
    | some j => j
    | none => i

/-- Enumerable own fields contributed by a spread `{...v}`: an object
spreads its fields, an array or string its indexed elements, primitives
nothing. -/
def spreadFields : JsV → List (String × JsV)
  | vObj fs => fs
  | vArr xs => xs.enum.map (fun p => (toString p.1, p.2))
  | vStr s => s.data.enum.map (fun p => (toString p.1, vStr (String.mk [p.2])))
  | _ => []

/-- The per-item context of `processEachBlocks`:
`{...item, _parent: data, _index: items.indexOf(item)}`. -/
def childContext (parent : JsV) (all : List JsV) (idx : Nat) (item : JsV) :
    JsV :=
  vObj (mkObjLit (spreadFields item ++
    [("_parent", parent), ("_index", vNum (Int.ofNat (jsIndexOf all idx)))]))

/-- Replacement text for one variable reference: resolve the trimmed key;
`undefined` renders empty, a function value is invoked, anything else is
string-coerced. -/
def substValue (d : JsV) (key : List Char) : List Char :=
  match getNestedValue d (trimL key) with
  | none => []
  | some (vFun ret) => (jsValueToString ret).data
  | some v => (jsValueToString v).data

/-- The tasks of the engine: the full `processTemplate` pipeline, the
`processEachBlocks` scan, the per-item expansion inside an each block, the
`processIfBlocks` scan, and the variable-substitution scan. -/
inductive EngTask where
  | template (t : List Char) (d : JsV)
  | eachBlocks (l : List Char) (d : JsV)
  | eachItems (body : List Char) (d : JsV) (all : List JsV) (idx : Nat)
      (rem : List JsV)
  | ifBlocks (l : List Char) (d : JsV)
  | varSubst (l : List Char) (d : JsV)

/-- The fueled engine. `template` runs the three passes in the fixed
source order (each, if, variables); the block scans recursively re-enter
`template` on block bodies and branches, exactly as the source callbacks
do. `none` means the fuel bound was hit; with sufficient fuel the result
is the value computed by the JavaScript (which can diverge on adversarial
data, hence the explicit bound). -/
def engineRun : Nat → EngTask → Option (List Char)
  | 0, _ => none
  | Nat.succ f, task =>
    match task with
    | .template t d =>
      if t.isEmpty then some [] else
      match engineRun f (.eachBlocks t d) with
      | none => none
      | some p1 =>
        match engineRun f (.ifBlocks p1 d) with
        | none => none
        | some p2 => engineRun f (.varSubst p2 d)
    | .eachBlocks [] _ => some []
    | .eachBlocks (c :: rest) d =>
      match eachOpenAt (c :: rest) with
      | some (run, content, after) =>
        match getNestedValue d (trimL run) with
        | some (vArr (x :: xs)) =>
          (engineRun f (.eachItems content d (x :: xs) 0 (x :: xs))).bind
            (fun rep => (engineRun f (.eachBlocks after d)).map
              (fun tail => rep ++ tail))
        | _ => engineRun f (.eachBlocks after d)
      | none =>
        (engineRun f (.eachBlocks rest d)).map (fun tail => c :: tail)
    | .eachItems _ _ _ _ [] => some []
    | .eachItems body d all idx (x :: rem) =>
      (engineRun f (.template body (childContext d all idx x))).bind
        (fun r => (engineRun f (.eachItems body d all (idx + 1) rem)).map
          (fun rest2 => r ++ rest2))
    | .ifBlocks [] _ => some []
    | .ifBlocks (c :: rest) d =>
      match ifOpenAt (c :: rest) with
      | some (run, ifC, elseC, after) =>
        (engineRun f
            (.template (if evalCondition d run then ifC else elseC) d)).bind
          (fun rep => (engineRun f (.ifBlocks after d)).map
            (fun tail => rep ++ tail))
      | none =>
        (engineRun f (.ifBlocks rest d)).map (fun tail => c :: tail)
    | .varSubst [] _ => some []
    | .varSubst (c :: rest) d =>
      match varAt (c :: rest) with
      | some (key, after) =>
        (engineRun f (.varSubst after d)).map
          (fun tail => substValue d key ++ tail)
      | none =>
        (engineRun f (.varSubst rest d)).map (fun tail => c :: tail)

/-- `processTemplate(template, data)` with an explicit fuel bound. -/
def processTemplate (fuel : Nat) (t : String) (d : JsV) : Option String :=
  (engineRun fuel (.template t.data d)).map (fun l => String.mk l)

/-- `processEachBlocks(template, data)` with an explicit fuel bound. -/
def processEachBlocks (fuel : Nat) (t : String) (d : JsV) : Option String :=
  (engineRun fuel (.eachBlocks t.data d)).map (fun l => String.mk l)

/-- `processIfBlocks(template, data)` with an explicit fuel bound. -/
def processIfBlocks (fuel : Nat) (t : String) (d : JsV) : Option String :=
  (engineRun fuel (.ifBlocks t.data d)).map (fun l => String.mk l)

/-- The engine terminates on this task with this result: the adequacy
statement abstracting over the fuel bound. -/
def Computes (task : EngTask) (r : List Char) : Prop :=
  ∃ fuel, engineRun fuel task = some r

end Blog

namespace Blog

open JsV

/-! ## Generic association lists (for string-valued caches) -/

/-- First-match lookup in a string-keyed association list. -/
def assocGet {α : Type} : List (String × α) → String → Option α
  | [], _ => none
  | (k0, v0) :: rest, k => if k0 = k then some v0 else assocGet rest k

/-- In-place overwrite-or-append, the JavaScript property assignment. -/
def assocSet {α : Type} : List (String × α) → String → α → List (String × α)
  | [], k, v => [(k, v)]
  | (k0, v0) :: rest, k, v =>
    if k0 = k then (k, v) :: rest else (k0, v0) :: assocSet rest k v

/-! ## Template cache / loader (templateEngine.js, `loadTemplate`)

Inside `loadTemplate` the local `const config = getConfig()` shadows the
module-level template-engine configuration, so every `config.cacheTemplates`
read in its body consults the SITE configuration object, and
`config.paths.templatesDir` is read off the same object. The module-level
configuration (touched by `updateConfig`) is modelled separately; it is
never consulted by `loadTemplate`. -/

/-- The slice of the site configuration object that `loadTemplate` reads:
`cacheTemplates` (absent in the default configuration) and
`paths.templatesDir`. -/
structure SiteTplConfig where
  cacheTemplates : Option JsV
  templatesDir : Option String

/-- Truthiness of the site configuration's `cacheTemplates` property. -/
def tplCacheEnabled (cfg : SiteTplConfig) : Bool :=
  match cfg.cacheTemplates with
  | some v => truthy v
  | none => false

/-- `process.cwd()` abstracted as an opaque-looking constant prefix. -/
def cwdTemplatesDir : String := "<cwd>/blog/templates"

/-- `path.join(config.paths.templatesDir || path.join(process.cwd(),
'blog/templates'), templateName + '.html')`. -/
def templatePathOf (cfg : SiteTplConfig) (name : String) : String :=
  (match cfg.templatesDir with
   | some dir => if dir.data.isEmpty then cwdTemplatesDir else dir
   | none => cwdTemplatesDir) ++ "/" ++ name ++ ".html"

/-- The engine-default template location `__dirname/../defaults/templates`. -/
def engineDefaultPathOf (name : String) : String :=
  "<engine>/defaults/templates/" ++ name ++ ".html"

/-- `loadTemplate(templateName)`: returns the template text and the updated
cache. The cache-hit test is a truthiness test of the cached CONTENT, so a
cached empty string never hits. A template found at neither location logs
and returns the empty string. The filesystem is a partial map from paths
to file contents (`none` models a read error). -/
def loadTemplate (cfg : SiteTplConfig) (fsRead : String → Option String)
    (cache : List (String × String)) (name : String) :
    String × List (String × String) :=
  let templatePath := templatePathOf cfg name
  let hit :=
    if tplCacheEnabled cfg then
      match assocGet cache templatePath with
      | some content => if content.data.isEmpty then none else some content
      | none => none
    else none
  match hit with
  | some content => (content, cache)
  | none =>
    match fsRead templatePath with
    | some template =>
      (template,
       if tplCacheEnabled cfg then assocSet cache templatePath template
       else cache)
    | none =>
      match fsRead (engineDefaultPathOf name) with
      | some template =>
        (template,
         if tplCacheEnabled cfg then assocSet cache templatePath template
         else cache)
      | none => ("", cache)

/-- The module-level template-engine configuration (DEFAULT_CONFIG merged
with updates); only its `cacheTemplates` flag is relevant here. -/
structure TplModuleConfig where
  cacheTemplates : Bool

/-- The module default: `cacheTemplates: true`. -/
def tplModuleDefault : TplModuleConfig := ⟨true⟩

/-- `updateConfig(newConfig)` of templateEngine.js: replace the module
configuration and clear the cache when caching was turned off. It does
not feed into `loadTemplate`, whose local `config` shadows it. -/
def tplUpdateConfig (newCache : Bool)
    (cache : List (String × String)) :
    TplModuleConfig × List (String × String) :=
  (⟨newCache⟩, if newCache then cache else [])

/-! ## Paginator (templateEngine.js, `calculatePagination`) -/

/-- The pagination view computed by `calculatePagination`. -/
structure PaginationView where
  startPage : Int
  endPage : Int
  showFirst : Bool
  showFirstEllipsis : Bool
  showLast : Bool
  showLastEllipsis : Bool
deriving DecidableEq, Repr

/-- `calculatePagination({currentPage, totalPages, range = 2})`. -/
def calculatePagination (currentPage totalPages range : Int) :
    PaginationView :=
  let startPage0 := max 1 (currentPage - range)
  let endPage0 := min totalPages (currentPage + range)
  let se :=
    if endPage0 - startPage0 < 4 ∧ totalPages > 4 then
      if startPage0 = 1 then (startPage0, min (startPage0 + 4) totalPages)
      else if endPage0 = totalPages then (max (endPage0 - 4) 1, endPage0)
      else (startPage0, endPage0)
    else (startPage0, endPage0)
  { startPage := se.1
    endPage := se.2
    showFirst := se.1 > 1
    showFirstEllipsis := se.1 > 2
    showLast := se.2 < totalPages
    showLastEllipsis := se.2 < totalPages - 1 }

/-- The page-number links emitted by `generatePagination`'s loop
`for (let i = startPage; i <= endPage; i++)`. -/
def visiblePages (v : PaginationView) : List Int :=
  (List.range (v.endPage - v.startPage + 1).toNat).map
    (fun k => v.startPage + Int.ofNat k)

/-- The specification's own description of the pagination window, written
from its words: start at `max(1, current-2)`, end at
`min(totalPages, current+2)`; widen toward the boundary not already at
the edge (capped) when the span covers fewer than 5 pages while more than
4 pages exist; `showFirst`/`showLast` exactly when the range excludes
page 1 / the last page; an ellipsis only when the gap to that boundary
exceeds one page. -/
def paginationSpecView (current totalPages : Int) : PaginationView :=
  let s0 := max 1 (current - 2)
  let e0 := min totalPages (current + 2)
  let widen := e0 - s0 + 1 < 5 ∧ totalPages > 4
  let se :=
    if widen then
      if s0 = 1 then (s0, min (s0 + 4) totalPages)
      else if e0 = totalPages then (max 1 (e0 - 4), e0)
      else (s0, e0)
    else (s0, e0)
  { startPage := se.1
    endPage := se.2
    showFirst := 1 < se.1
    showFirstEllipsis := 1 < se.1 - 1
    showLast := se.2 < totalPages
    showLastEllipsis := 1 < totalPages - se.2 }

end Blog

namespace Blog

open JsV

/-! ## Markdown processor (markdownProcessor.js)

The external `marked` parser is a parameter (`Except` models a thrown
parse error); the render cache is elided because the parser parameter is
a function, so caching is observationally inert. The module configuration
is never updated by the builder (the import is unused), so
`readingTime.minMinutes = 1` and the fallback `wordsPerMinute = 200`
apply. -/

/-- `renderMarkdown(markdown)`: an empty (falsy) input yields the empty
string; a parser exception is caught and replaced by a fixed error
paragraph, so this function never throws and never excludes a document. -/
def renderMarkdown (parse : String → Except Unit String) (markdown : String) :
    String :=
  if markdown.data.isEmpty then "" else
  match parse markdown with
  | .ok html => html
  | .error _ => "<p>Error rendering content.</p>"

/-- `extractFrontmatter(content)`: the external gray-matter parser is a
parameter returning `(data, body)`; a thrown parse error (modelled by
`none`) degrades to "no metadata, full text is body". -/
def extractFrontmatter (fm : String → Option (JsV × String))
    (content : String) : JsV × String :=
  match fm content with
  | some r => r
  | none => (vObj [], content)

/-- `Math.ceil(a / b)` for integers, `b ≠ 0` at every call site. -/
def jsCeilDiv (a b : Int) : Int := -((-a).fdiv b)

/-- `calculateReadingTime(text)`: falsy text short-circuits to the module
minimum (1); otherwise the word count is `text.trim().split(/\s+/).length`
(which is 1 for whitespace-only text, since splitting an empty string
yields one empty token) divided by the configured words-per-minute
(site `content.wordsPerMinute` when truthy, else the module default 200),
rounded up and clamped below by the minimum. -/
def calculateReadingTime (wpmCfg : Option Int) (text : String) : Int :=
  if text.data.isEmpty then 1
  else
    let wpm : Int :=
      match wpmCfg with
      | some n => if n ≠ 0 then n else 200
      | none => 200
    let tks := splitWsRuns (trimL text.data)
    let words : Int := Int.ofNat (if tks.isEmpty then 1 else tks.length)
    max 1 (jsCeilDiv words wpm)

/-! ## Content pipeline (siteBuilder.js, `processPostFile` / `loadAllPosts`) -/

/-- The slice of the site configuration consulted by the pipeline.
`showReadingTime` uses an `!== undefined` test, so a present falsy value
is kept; `defaultAuthor` and `wordsPerMinute` use truthiness tests.
`wordsPerMinute` is restricted to integer configurations. -/
structure ContentCfg where
  defaultAuthor : Option JsV
  showReadingTime : Option JsV
  wordsPerMinute : Option Int

/-- The fallback title: `filename` with the first `.md` occurrence
removed and every dash replaced by a space. -/
def synthTitle (filename : String) : String :=
  String.mk (replaceAllCh '-' ' ' (replaceFirstSub ['.', 'm', 'd'] [] filename.data))

/-- `filename.replace('.md', '').replace(/ /g, '_')` — the url slug. -/
def synthFile (filename : String) : String :=
  String.mk (replaceAllCh ' ' '_' (replaceFirstSub ['.', 'm', 'd'] [] filename.data))

/-- `stats.mtime.toISOString().split('T')[0]` — the date part of an ISO
timestamp string. -/
def isoDatePart (mtimeIso : String) : String :=
  String.mk ((splitOnCh 'T' mtimeIso.data).headD [])

/-- The `postData` mutations of `processPostFile`: starting from a copy of
the frontmatter data, a falsy `date` is replaced by the file-modification
date (with a warning), a falsy `title` by the normalised filename (with a
warning), and a falsy `author` by the configured default author when that
is truthy. Returns the mutated object and the warnings logged. -/
def postDataDefaults (cfg : ContentCfg) (data : JsV) (mtimeIso filename : String) :
    List (String × JsV) × List String :=
  let pd0 := mkObjLit (spreadFields data)
  let step1 :=
    if truthyOpt (lookupField pd0 "date") then (pd0, [])
    else (setField pd0 "date" (vStr (isoDatePart mtimeIso)),
          ["Warning: Missing date in " ++ filename ++ ", using file modification date"])
  let step2 :=
    if truthyOpt (lookupField step1.1 "title") then step1
    else (setField step1.1 "title" (vStr (synthTitle filename)),
          step1.2 ++ ["Warning: Missing title in " ++ filename ++ ", using normalized filename"])
  let step3 :=
    if truthyOpt (lookupField step2.1 "author") then step2
    else
      match cfg.defaultAuthor with
      | some da => if truthy da then (setField step2.1 "author" da, step2.2) else step2
      | none => step2
  step3

/-- A post object, as the JavaScript object literal of lines 564-578 of
siteBuilder.js: the computed fields in source order followed by the spread
of `postData`, later entries overwriting earlier ones. -/
def postObject (cfg : ContentCfg) (parse : String → Except Unit String)
    (fmtDate : JsV → String) (pd : List (String × JsV))
    (markdownContent filename : String) : List (String × JsV) :=
  let html := renderMarkdown parse markdownContent
  let readingTime := calculateReadingTime cfg.wordsPerMinute markdownContent
  let showRT := match cfg.showReadingTime with
    | some v => v
    | none => vBool true
  let fileName := synthFile filename
  mkObjLit ([
    ("file", vStr fileName),
    ("title", (lookupField pd "title").getD vNull),
    ("date", (lookupField pd "date").getD vNull),
    ("author",
      if truthyOpt (lookupField pd "author") then (lookupField pd "author").getD vNull
      else vStr ""),
    ("tags",
      if truthyOpt (lookupField pd "tags") then (lookupField pd "tags").getD vNull
      else vArr []),
    ("summary",
      if truthyOpt (lookupField pd "summary") then (lookupField pd "summary").getD vNull
      else vStr ""),
    ("content", vStr markdownContent),
    ("html", vStr html),
    ("readingTime", vNum readingTime),
    ("showReadingTime", showRT),
    ("formattedDate", vStr (fmtDate ((lookupField pd "date").getD vNull))),
    ("url", vStr ("/posts/" ++ fileName ++ "/"))] ++ pd)

/-- `processPostFile(filePath, filename)`: a failed file read (`none`) is
the only reachable exception source, logged and returning `null`;
otherwise frontmatter is split off (degrading gracefully), defaults are
applied, and the post object is assembled. The second component collects
the console warnings/errors. -/
def processPostFile (cfg : ContentCfg) (fm : String → Option (JsV × String))
    (parse : String → Except Unit String) (fmtDate : JsV → String)
    (readResult : Option String) (mtimeIso filename : String) :
    Option (List (String × JsV)) × List String :=
  match readResult with
  | none => (none, ["Error processing file " ++ filename])
  | some content =>
    let fmres := extractFrontmatter fm content
    let pdw := postDataDefaults cfg fmres.1 mtimeIso filename
    (some (postObject cfg parse fmtDate pdw.1 fmres.2 filename), pdw.2)

/-- The sort comparator of `loadAllPosts`:
`(a, b) => new Date(b.date) - new Date(a.date)`, with `dateNum` modelling
`Date` parsing (`none` is NaN, which the sort treats as 0). -/
def postsCmp (dateNum : JsV → Option Int)
    (a b : List (String × JsV)) : Int :=
  match dateNum ((lookupField b "date").getD vNull),
        dateNum ((lookupField a "date").getD vNull) with
  | some db, some da => db - da
  | _, _ => 0

/-- Stable insertion: an element passes exactly the entries it must sort
strictly after, so ties keep their original relative order. Any stable
sort (in particular the ECMAScript `Array.prototype.sort`) computes this
result for a consistent comparator. -/
def insertByCmp {α : Type} (cmp : α → α → Int) (x : α) : List α → List α
  | [] => [x]
  | y :: ys => if cmp x y ≤ 0 then x :: y :: ys else y :: insertByCmp cmp x ys

/-- Stable sort by a JavaScript comparator. -/
def sortByCmp {α : Type} (cmp : α → α → Int) (l : List α) : List α :=
  l.foldr (insertByCmp cmp) []

/-- `loadAllPosts`: the directory listing `files`, per-file reads and
modification times are external inputs; each file is processed
independently, failed posts (`null`) are filtered out, and the survivors
are sorted by date descending. -/
def loadAllPosts (cfg : ContentCfg) (fm : String → Option (JsV × String))
    (parse : String → Except Unit String) (fmtDate : JsV → String)
    (fsRead : String → Option String) (mtimeOf : String → String)
    (dateNum : JsV → Option Int) (postsDir : String) (files : List String) :
    List (List (String × JsV)) :=
  let posts := files.map (fun f =>
    (processPostFile cfg fm parse fmtDate (fsRead (postsDir ++ "/" ++ f))
      (mtimeOf f) f).1)
  let validPosts := posts.filterMap id
  sortByCmp (postsCmp dateNum) validPosts

end Blog

namespace Blog

open JsV

/-! ## Configuration manager (configManager.js)

`loadConfig` reads the user configuration file inside an inner try/catch:
a missing or unparseable file is logged and replaced by the defaults, so
it cannot abort the load. Only the later stages can throw: a truthy
non-string path makes `path.isAbsolute`/`path.join` raise a TypeError,
and a merged configuration failing schema validation raises
`Invalid configuration`; both propagate out of `loadConfig`. -/

/-- `DEFAULT_CONFIG` of configManager.js. -/
def defaultConfigV : JsV :=
  vObj [
    ("_version", vStr "1.0.0"),
    ("site", vObj [
      ("title", vStr "Markdown Blog"),
      ("description", vStr "A static blog built with markdown-blog-engine"),
      ("language", vStr "en")]),
    ("content", vObj [("postsPerPage", vNum 10)]),
    ("paths", vObj [
      ("contentDir", vStr "./blog/content"),
      ("templatesDir", vStr "./blog/templates"),
      ("outputDir", vStr "./dist"),
      ("cssDir", vStr "./blog/css")])]

/-- Property read `v[k]` with a string key. -/
def getKeyV (v : JsV) (k : String) : Option JsV := getProp v k.data

/-- Property assignment `v[k] = x`; silently a no-op on primitives, as in
sloppy-mode JavaScript. -/
def setKeyV (v : JsV) (k : String) (x : JsV) : JsV :=
  match v with
  | vObj fs => vObj (setField fs k x)
  | other => other

/-- Is a value subject to recursive merging in `deepMerge`
(`typeof === 'object' && !== null && !Array.isArray`)? -/
def isPlainObjV : JsV → Bool
  | vObj _ => true
  | _ => false

/-- Does a value satisfy `target[key] && typeof target[key] === 'object'`? -/
def isTruthyObjectTyped : JsV → Bool
  | vObj _ => true
  | vArr _ => true
  | _ => false

/-- One `for (const key in source)` step collection of `deepMerge`, with
the recursive merge passed in as a function parameter so that the
recursion is driven purely by the explicit fuel of `deepMergeF`. `tfs`
holds the ORIGINAL target fields (the code consults `target[key]`, not
the accumulating output). -/
def mergeGoWith (mrg : JsV → JsV → JsV) (tfs : List (String × JsV))
    (out : List (String × JsV)) : List (String × JsV) → List (String × JsV)
  | [] => out
  | (k, sv) :: rest =>
    let newVal :=
      if isPlainObjV sv then
        match lookupField tfs k with
        | some tv => if isTruthyObjectTyped tv then mrg tv sv else sv
        | none => sv
      else sv
    mergeGoWith mrg tfs (setField out k newVal) rest

/-- `deepMerge(target, source)`: start from a spread of the target and
fold the source's enumerable fields over it, recursing on plain-object
values whose target counterpart is object-typed. Configuration nesting is
shallow, so any fuel past the nesting depth computes the JavaScript
result. -/
def deepMergeF : Nat → JsV → JsV → JsV
  | 0, _, s => s
  | Nat.succ f, t, s =>
    let tf := spreadFields t
    vObj (mergeGoWith (deepMergeF f) tf tf (spreadFields s))

/-- `migrateConfig(config, fromVersion, toVersion)` at the only call site:
`fromVersion = userConfig._version || '1.0.0'`, `toVersion = '1.0.0'`;
equal versions return the configuration untouched, otherwise `_version`
is overwritten. -/
def migrateConfig (user : JsV) : JsV :=
  let fromVersion :=
    match getKeyV user "_version" with
    | some v => if truthy v then v else vStr "1.0.0"
    | none => vStr "1.0.0"
  if jsStrictEq fromVersion (vStr "1.0.0") then user
  else setKeyV user "_version" (vStr "1.0.0")

/-- `path.isAbsolute`, for the POSIX paths used throughout. -/
def isAbsPath (s : String) : Bool :=
  match s.data with
  | '/' :: _ => true
  | _ => false

/-- The characters after the final slash (`path.basename`, for the
normalised inputs used here). -/
def baseNameOf (s : String) : String :=
  String.mk ((splitOnCh '/' s.data).getLastD [])

/-- Everything before the final slash (`path.dirname`), "." if none. -/
def dirNameOf (s : String) : String :=
  match (splitOnCh '/' s.data).dropLast with
  | [] => "."
  | parts => String.mk (List.intercalate ['/'] parts)

/-- `path.resolve(basePath, p)` modelled as concatenation for relative
`p` (normalisation of `.`/`..` segments is irrelevant to every claim). -/
def resolveUnder (basePath p : String) : String :=
  if isAbsPath p then p else basePath ++ "/" ++ p

/-- Resolve one path field of `resolvePaths`: skipped when absent or
falsy; a truthy non-string value makes `path.isAbsolute` throw a
TypeError; a relative string is resolved against `basePath`, with the
`blog`-deduplication branch resolving against the parent directory when
the base ends in `blog` and the path starts with `./blog/`. `dedup`
selects whether that branch exists for this field (it does for
contentDir, templatesDir and cssDir, not for outputDir). -/
def resolvePathField (basePath : String) (dedup : Bool)
    (paths : List (String × JsV)) (key : String) :
    Except String (List (String × JsV)) :=
  match lookupField paths key with
  | none => .ok paths
  | some pv =>
    if truthy pv then
      match pv with
      | vStr p =>
        if isAbsPath p then .ok paths
        else
          let resolved :=
            if dedup ∧ baseNameOf basePath = "blog" ∧
                (afterLead? "./blog/".data p.data).isSome then
              resolveUnder (dirNameOf basePath) p
            else resolveUnder basePath p
          .ok (setField paths key (vStr resolved))
      | _ => .error "TypeError: path argument must be a string"
    else .ok paths

/-- `resolvePaths(config, basePath)`: rewrite the four path fields in
source order when a truthy `paths` object is present. A non-object truthy
`paths` value has no string-valued fields to rewrite and passes through. -/
def resolvePathsE (basePath : String) (c : JsV) :
    Except String JsV :=
  match getKeyV c "paths" with
  | none => .ok c
  | some pv =>
    if !truthy pv then .ok c
    else
      match pv with
      | vObj paths0 =>
        match resolvePathField basePath true paths0 "contentDir" with
        | .error e => .error e
        | .ok p1 =>
          match resolvePathField basePath false p1 "outputDir" with
          | .error e => .error e
          | .ok p2 =>
            match resolvePathField basePath true p2 "templatesDir" with
            | .error e => .error e
            | .ok p3 =>
              match resolvePathField basePath true p3 "cssDir" with
              | .error e => .error e
              | .ok p4 => .ok (setKeyV c "paths" (vObj p4))
      | _ => .ok c

/-- `addDerivedProperties(config)`: when a truthy `paths` exists, extend
it with `postsDir`/`aboutDir` via `path.join(contentDir, ...)`, which
throws a TypeError unless `contentDir` is a string. -/
def addDerivedPropertiesE (c : JsV) : Except String JsV :=
  match getKeyV c "paths" with
  | none => .ok c
  | some pv =>
    if !truthy pv then .ok c
    else
      match getKeyV pv "contentDir" with
      | some (vStr cd) =>
        .ok (setKeyV c "paths"
          (vObj (setField
            (setField (mkObjLit (spreadFields pv)) "postsDir"
              (vStr (cd ++ "/posts")))
            "aboutDir" (vStr (cd ++ "/about")))))
      | _ => .error "TypeError: path argument must be a string"

/-- One leaf check of `validateValue` under the schema shapes actually
present: a required absent/null value is an error; a present non-null
value of the wrong `typeof` is an error; a number below `min` is an
error. -/
def validateLeaf (sectionV : JsV) (key : String) (expectNumber : Bool)
    (minV : Option Int) (pathLabel : String) : List String :=
  match getKeyV sectionV key with
  | none => [pathLabel ++ " is required"]
  | some vNull => [pathLabel ++ " is required"]
  | some v =>
    let typeErr :=
      if expectNumber then
        match v with
        | vNum _ => []
        | _ => [pathLabel ++ " should be of type number"]
      else
        match v with
        | vStr _ => []
        | _ => [pathLabel ++ " should be of type string"]
    let minErr :=
      match minV, v with
      | some m, vNum n => if n < m then [pathLabel ++ " should be at least 1"] else []
      | _, _ => []
    typeErr ++ minErr

/-- The section object seen by `validateSection`: a falsy section is
replaced by an empty object before its leaves are checked. -/
def sectionOf (c : JsV) (name : String) : JsV :=
  match getKeyV c name with
  | some v => if truthy v then v else vObj []
  | none => vObj []

/-- `validateConfig(config).errors` for the fixed `CONFIG_SCHEMA`. The
`_version` entry contributes nothing: its schema leaves are the strings
`'string'`/`true`, which carry no `required` or `type` markers, so
`validateValue` finds nothing to check. -/
def validateConfigErrors (c : JsV) : List String :=
  let site := sectionOf c "site"
  let content := sectionOf c "content"
  let paths := sectionOf c "paths"
  validateLeaf site "title" false none "site.title" ++
  validateLeaf site "description" false none "site.description" ++
  validateLeaf site "language" false none "site.language" ++
  validateLeaf content "postsPerPage" true (some 1) "content.postsPerPage" ++
  validateLeaf paths "contentDir" false none "paths.contentDir" ++
  validateLeaf paths "templatesDir" false none "paths.templatesDir" ++
  validateLeaf paths "outputDir" false none "paths.outputDir" ++
  validateLeaf paths "cssDir" false none "paths.cssDir"

/-- `loadConfig(options)` with `useCache: false` (the builder's call):
`userData` is the parsed configuration file (`none` when the file is
missing or `JSON.parse` throws — both land in the inner catch and fall
back to the defaults with a warning). `basePath` is
`path.dirname(configPath)`; `outputDirOpt` the CLI output override.
The outer catch rethrows, so the result is an `Except`. -/
def loadConfig (userData : Option JsV) (basePath : String)
    (outputDirOpt : Option String) : Except String JsV :=
  let merged :=
    match userData with
    | some u => deepMergeF 8 defaultConfigV (migrateConfig u)
    | none => defaultConfigV
  match resolvePathsE basePath merged with
  | .error e => .error e
  | .ok resolved =>
    let withOut :=
      match outputDirOpt with
      | some od =>
        match getKeyV resolved "paths" with
        | some (vObj pf) =>
          setKeyV resolved "paths"
            (vObj (setField pf "outputDir"
              (vStr (if isAbsPath od then od else "<cwd>/" ++ od))))
        | _ => resolved
      | none => resolved
    match addDerivedPropertiesE withOut with
    | .error e => .error e
    | .ok final =>
      if (validateConfigErrors final).isEmpty then .ok final
      else .error "Invalid configuration"

end Blog

namespace Blog

open JsV

/-! ## Build orchestrator (siteBuilder.js, `buildSite`)

Each page-type builder wraps its work in try/catch: every builder except
`buildAboutPage` logs and RE-THROWS its error; `buildAboutPage` logs and
swallows it (and silently returns when no about source exists).
`buildSite` awaits `loadConfig`, `writeCssVariables`, `loadAllPosts`
(which itself never throws — it degrades to an empty list), then
dispatches the seven page tasks through `Promise.all`; any rejection
reaches the outer catch, which logs, awaits `buildErrorPage()` and
re-throws (a failure of `buildErrorPage` itself replaces the propagated
error). The underlying work of each task is abstracted as an
`Except String Unit` outcome; `Promise.all` is modelled as surfacing the
first failing outcome in program order (a determinisation of the race;
the claims under study involve a single failing task). -/

/-- Log-and-rethrow wrapper shared by `buildHomePage`, `buildPostPages`,
`buildTagPages`, `buildTagsIndexPage`, `buildSitemap` and
`generateStaticAssets`. -/
def pageTaskRun (taskName : String) (r : Except String Unit) :
    Except String Unit × List String :=
  match r with
  | .ok _ => (.ok (), [])
  | .error e => (.error e, ["Error building " ++ taskName ++ ": " ++ e])

/-- `buildAboutPage`: a missing about file or any error is logged and
swallowed — the returned outcome is success whatever happened to the
underlying work. -/
def buildAboutPageRun (r : Except String Unit) :
    Except String Unit × List String :=
  (.ok (),
   match r with
   | .ok _ => []
   | .error e => ["Error building about page: " ++ e])

/-- First error among a list of settled outcomes. -/
def firstErrOf : List (Except String Unit) → Option String
  | [] => none
  | .ok _ :: rest => firstErrOf rest
  | .error e :: _ => some e

/-- The observable outcome of one `buildSite` run. -/
structure BuildOutcome where
  result : Except String Unit
  errorPageAttempted : Bool
  logs : List String

/-- The outer catch of `buildSite`: log, attempt the error page, re-throw
(the error-page failure, if any, replaces the original error). -/
def buildSiteFail (e : String) (errorPageR : Except String Unit)
    (ls : List String) : BuildOutcome :=
  { result := .error (match errorPageR with
      | .ok _ => e
      | .error e2 => e2)
    errorPageAttempted := true
    logs := ls ++ ["Error building site: " ++ e] }

/-- `buildSite(options)` over the abstracted outcomes of its awaited
steps. `cfgR` is the `loadConfig` result; the remaining arguments are the
outcomes of the CSS write and of the seven parallel page tasks; `errorPageR`
is the outcome `buildErrorPage` would have. -/
def buildSiteModel (cfgR : Except String JsV)
    (cssR assetsR homeR postsR tagPagesR tagsIndexR aboutR sitemapR
      errorPageR : Except String Unit) : BuildOutcome :=
  match cfgR with
  | .error e => buildSiteFail e errorPageR ["Error loading configuration"]
  | .ok _ =>
    match cssR with
    | .error e => buildSiteFail e errorPageR []
    | .ok _ =>
      let settled := [
        pageTaskRun "static assets" assetsR,
        pageTaskRun "home page" homeR,
        pageTaskRun "post pages" postsR,
        pageTaskRun "tag pages" tagPagesR,
        pageTaskRun "tags index page" tagsIndexR,
        buildAboutPageRun aboutR,
        pageTaskRun "sitemap" sitemapR]
      let taskLogs := settled.foldr (fun p acc => p.2 ++ acc) []
      match firstErrOf (settled.map Prod.fst) with
      | some e => buildSiteFail e errorPageR taskLogs
      | none =>
        { result := .ok ()
          errorPageAttempted := false
          logs := taskLogs ++ ["Site build completed successfully!"] }

/-- Success test for an `Except`. -/
def isOkE {ε α : Type} : Except ε α → Bool
  | .ok _ => true
  | .error _ => false

/-! ## Concrete fixtures used when evaluating the model on sample inputs -/

/-- The `{{#if flag}}Y{{else}}N{{/if}}` conditional of the specification. -/
def tplIfFlag : String :=
  "\x7b\x7b#if flag\x7d\x7dY\x7b\x7belse\x7d\x7dN\x7b\x7b/if\x7d\x7d"

/-- A conditional with a recognised binary operator. -/
def tplIfCmp : String :=
  "\x7b\x7b#if a == b\x7d\x7dY\x7b\x7belse\x7d\x7dN\x7b\x7b/if\x7d\x7d"

/-- A three-token conditional whose middle token is no operator. -/
def tplIfThreeTok : String :=
  "\x7b\x7b#if x y z\x7d\x7dY\x7b\x7belse\x7d\x7dN\x7b\x7b/if\x7d\x7d"

/-- A two-token conditional (the source dereferences `undefined` here). -/
def tplIfTwoTok : String :=
  "\x7b\x7b#if x y\x7d\x7dY\x7b\x7belse\x7d\x7dN\x7b\x7b/if\x7d\x7d"

/-- The `{{#each xs}}{{v}}{{/each}}` iteration of the specification. -/
def tplEachV : String :=
  "\x7b\x7b#each xs\x7d\x7d\x7b\x7bv\x7d\x7d\x7b\x7b/each\x7d\x7d"

/-- An iteration rendering each element's `_index`. -/
def tplEachIndex : String :=
  "\x7b\x7b#each xs\x7d\x7d\x7b\x7b_index\x7d\x7d\x7b\x7b/each\x7d\x7d"

/-- A bare variable reference to `x`. -/
def tplVarX : String := "\x7b\x7bx\x7d\x7d"

/-- An element `{v: s}` of a `{{#each}}` sequence. -/
def vItem (s : String) : JsV := vObj [("v", vStr s)]

/-- A context whose `x` holds directive text: substituting it emits
`{{y}}` as literal output, which a second evaluation re-interprets. -/
def reinterpretCtx : JsV :=
  vObj [("x", vStr "\x7b\x7by\x7d\x7d"), ("y", vStr "z")]

/-- The site configuration slice `loadTemplate` sees under the
configuration-manager defaults: no `cacheTemplates` key, the default
templates directory. -/
def siteTplDefault : SiteTplConfig := ⟨none, some "./blog/templates"⟩

/-- A site configuration that turns template caching on (a user
`config.json` carrying `cacheTemplates: true`). -/
def siteTplCaching : SiteTplConfig := ⟨some (vBool true), some "./blog/templates"⟩

/-- A filesystem whose user-template file for `base` holds "AAA". -/
def fsTplA : String → Option String := fun p =>
  if p = templatePathOf siteTplDefault "base" then some "AAA" else none

/-- The same path now holds "BBB" (models a change between two reads; a
memoized loader would still return "AAA"). -/
def fsTplB : String → Option String := fun p =>
  if p = templatePathOf siteTplDefault "base" then some "BBB" else none

/-- A frontmatter parser finding no metadata (body passes through). -/
def fmNone : String → Option (JsV × String) := fun c => some (vObj [], c)

/-- A markdown renderer failing exactly on the text "BAD". -/
def parseMark : String → Except Unit String := fun s =>
  if s = "BAD" then .error () else .ok ("<p>" ++ s ++ "</p>")

/-- A date formatter standing in for the locale formatting collaborator. -/
def fmtFixed : JsV → String := fun _ => "formatted"

/-- A stand-in for `Date` parsing: any monotone encoding of ISO dates
works for order; digit concatenation is monotone on same-length dates. -/
def dateNumIso : JsV → Option Int := fun v =>
  match v with
  | vStr s =>
    if s.data.length = 10 ∧ s.data.all (fun c => c.isDigit || c = '-') then
      some (Int.ofNat (digitsToNat (s.data.filter Char.isDigit)))
    else none
  | _ => none

/-- A content configuration with everything defaulted. -/
def cfgPlain : ContentCfg := ⟨none, none, none⟩

/-- Frontmatter declaring a title, a date, and a body-overriding `content`
key (used to exhibit the spread-last override). -/
def fmSpoof : String → Option (JsV × String) := fun c =>
  some (vObj [("title", vStr "T"), ("date", vStr "2024-01-02"),
    ("content", vStr "SPOOF")], c)

/-- Frontmatter keyed by body text, with dates making the second file
newer, used for the batch-ordering fixtures. -/
def fmByBody : String → Option (JsV × String) := fun c =>
  if c = "aaa" then some (vObj [("title", vStr "A"), ("date", vStr "2024-01-01")], c)
  else some (vObj [("title", vStr "B"), ("date", vStr "2024-06-01")], c)

/-- A posts directory holding a readable `a.md`, a readable `b.md` whose
body makes the markdown renderer throw, and an unreadable `c.md`. -/
def fsPosts : String → Option String := fun p =>
  if p = "posts/a.md" then some "aaa"
  else if p = "posts/b.md" then some "BAD"
  else none

/-- Modification times for the batch fixtures. -/
def mtimeFixed : String → String := fun _ => "2024-05-06T00:00:00.000Z"

/-- A user configuration whose `postsPerPage` fails the `min: 1` check. -/
def invalidUserCfg : JsV :=
  vObj [("content", vObj [("postsPerPage", vNum 0)])]

end Blog

namespace Blog

open JsV

/-! ## Engine lemmas: fuel monotonicity and literal-text fixpoints -/


theorem engineRun_mono :
    ∀ (f f' : Nat), f ≤ f' → ∀ task r, engineRun f task = some r →
      engineRun f' task = some r := by
  intro f
  induction f with
  | zero => intro f' _ task r h; simp [engineRun] at h
  | succ g ih =>
    intro f' hle task r h
    obtain ⟨g', rfl⟩ : ∃ g', f' = g' + 1 := ⟨f' - 1, by omega⟩
    have hgg : g ≤ g' := by omega
    cases task with
    | template t d =>
      simp only [engineRun] at h ⊢
      by_cases ht : t.isEmpty
      · simpa [ht] using h
      · simp only [ht, if_false] at h ⊢
        cases h1 : engineRun g (.eachBlocks t d) with
        | none => rw [h1] at h; exact absurd h (by simp)
        | some p1 =>
          rw [h1] at h
          rw [ih g' hgg _ _ h1]
          dsimp only at h ⊢
          cases h2 : engineRun g (.ifBlocks p1 d) with
          | none => rw [h2] at h; exact absurd h (by simp)
          | some p2 =>
            rw [h2] at h
            rw [ih g' hgg _ _ h2]
            exact ih g' hgg _ _ h
    | eachBlocks l d =>
      cases l with
      | nil => simpa [engineRun] using h
      | cons c rest =>
        simp only [engineRun] at h ⊢
        cases heq : eachOpenAt (c :: rest) with
        | none =>
          rw [heq] at h
          dsimp only at h ⊢
          cases h1 : engineRun g (.eachBlocks rest d) with
          | none => rw [h1] at h; exact absurd h (by simp)
          | some tail => rw [h1] at h; rw [ih g' hgg _ _ h1]; exact h
        | some res =>
          obtain ⟨run, content, after⟩ := res
          rw [heq] at h
          dsimp only at h ⊢
          cases hres : getNestedValue d (trimL run) with
          | none => rw [hres] at h; exact ih g' hgg _ _ h
          | some v =>
            rw [hres] at h
            cases v with
            | vArr xs =>
              cases xs with
              | nil => exact ih g' hgg _ _ h
              | cons x rest2 =>
                dsimp only at h ⊢
                cases h1 : engineRun g (.eachItems content d (x :: rest2) 0 (x :: rest2)) with
                | none => rw [h1] at h; exact absurd h (by simp)
                | some rep =>
                  rw [h1] at h
                  rw [ih g' hgg _ _ h1]
                  dsimp only [Option.bind] at h ⊢
                  cases h2 : engineRun g (.eachBlocks after d) with
                  | none => rw [h2] at h; exact absurd h (by simp)
                  | some tail => rw [h2] at h; rw [ih g' hgg _ _ h2]; exact h
            | vStr s => exact ih g' hgg _ _ h
            | vNum n => exact ih g' hgg _ _ h
            | vBool b => exact ih g' hgg _ _ h
            | vNull => exact ih g' hgg _ _ h
            | vObj fs => exact ih g' hgg _ _ h
            | vFun ret => exact ih g' hgg _ _ h
    | eachItems body d all idx rem =>
      cases rem with
      | nil => simpa [engineRun] using h
      | cons x rem2 =>
        simp only [engineRun] at h ⊢
        cases h1 : engineRun g (.template body (childContext d all idx x)) with
        | none => rw [h1] at h; exact absurd h (by simp)
        | some r1 =>
          rw [h1] at h
          rw [ih g' hgg _ _ h1]
          dsimp only [Option.bind] at h ⊢
          cases h2 : engineRun g (.eachItems body d all (idx + 1) rem2) with
          | none => rw [h2] at h; exact absurd h (by simp)
          | some r2 => rw [h2] at h; rw [ih g' hgg _ _ h2]; exact h
    | ifBlocks l d =>
      cases l with
      | nil => simpa [engineRun] using h
      | cons c rest =>
        simp only [engineRun] at h ⊢
        cases heq : ifOpenAt (c :: rest) with
        | none =>
          rw [heq] at h
          dsimp only at h ⊢
          cases h1 : engineRun g (.ifBlocks rest d) with
          | none => rw [h1] at h; exact absurd h (by simp)
          | some tail => rw [h1] at h; rw [ih g' hgg _ _ h1]; exact h
        | some res =>
          obtain ⟨run, ifC, elseC, after⟩ := res
          rw [heq] at h
          dsimp only at h ⊢
          cases h1 : engineRun g (.template (if evalCondition d run then ifC else elseC) d) with
          | none => rw [h1] at h; exact absurd h (by simp)
          | some rep =>
            rw [h1] at h
            rw [ih g' hgg _ _ h1]
            dsimp only [Option.bind] at h ⊢
            cases h2 : engineRun g (.ifBlocks after d) with
            | none => rw [h2] at h; exact absurd h (by simp)
            | some tail => rw [h2] at h; rw [ih g' hgg _ _ h2]; exact h
    | varSubst l d =>
      cases l with
      | nil => simpa [engineRun] using h
      | cons c rest =>
        simp only [engineRun] at h ⊢
        cases heq : varAt (c :: rest) with
        | none =>
          rw [heq] at h
          dsimp only at h ⊢
          cases h1 : engineRun g (.varSubst rest d) with
          | none => rw [h1] at h; exact absurd h (by simp)
          | some tail => rw [h1] at h; rw [ih g' hgg _ _ h1]; exact h
        | some res =>
          obtain ⟨key, after⟩ := res
          rw [heq] at h
          dsimp only at h ⊢
          cases h1 : engineRun g (.varSubst after d) with
          | none => rw [h1] at h; exact absurd h (by simp)
          | some tail => rw [h1] at h; rw [ih g' hgg _ _ h1]; exact h


/-- Any two sufficient fuels agree. -/
theorem computes_det {task : EngTask} {r r' : List Char}
    (h : Computes task r) (h' : Computes task r') : r = r' := by
  obtain ⟨f, hf⟩ := h
  obtain ⟨f', hf'⟩ := h'
  rcases le_total f f' with hle | hle
  · have := engineRun_mono f f' hle _ _ hf
    rw [this] at hf'; exact (Option.some.injEq _ _).mp hf'
  · have := engineRun_mono f' f hle _ _ hf'
    rw [this] at hf; exact ((Option.some.injEq _ _).mp hf).symm

/-- Splitting a prefix off: `afterLead?` distributes over pattern
concatenation. -/
theorem afterLead?_append (p q l : List Char) :
    afterLead? (p ++ q) l = (afterLead? p l).bind (afterLead? q) := by
  induction p generalizing l with
  | nil => simp [afterLead?]
  | cons hd tl ih =>
    cases l with
    | nil => simp [afterLead?]
    | cons c cs =>
      simp only [List.cons_append, afterLead?]
      by_cases hc : hd = c
      · simp [hc, ih]
      · simp [hc]

/-- A successful prefix match decomposes the list. -/
theorem afterLead?_eq {p l r : List Char} (h : afterLead? p l = some r) :
    l = p ++ r := by
  induction p generalizing l with
  | nil => simpa [afterLead?] using h
  | cons hd tl ih =>
    cases l with
    | nil => simp [afterLead?] at h
    | cons c cs =>
      simp only [afterLead?] at h
      by_cases hc : hd = c
      · rw [if_pos hc] at h
        simpa [hc] using ih h
      · rw [if_neg hc] at h; exact absurd h (by simp)

/-- A successful first-occurrence split decomposes the list. -/
theorem splitFirst_eq {pat l pre post : List Char}
    (h : splitFirst pat l = some (pre, post)) : l = pre ++ pat ++ post := by
  induction l generalizing pre with
  | nil => simp [splitFirst] at h
  | cons c rest ih =>
    simp only [splitFirst] at h
    cases hl : afterLead? pat (c :: rest) with
    | some post0 =>
      rw [hl] at h
      obtain ⟨rfl, rfl⟩ : pre = [] ∧ post0 = post := by
        simpa using h
      simpa using afterLead?_eq hl
    | none =>
      rw [hl] at h
      cases hs : splitFirst pat rest with
      | none => rw [hs] at h; exact absurd h (by simp)
      | some pq =>
        obtain ⟨pre0, post0⟩ := pq
        rw [hs] at h
        obtain ⟨rfl, rfl⟩ : c :: pre0 = pre ∧ post0 = post := by
          simpa using h
        simpa using ih hs

/-- Decompose absence of a pattern at a cons cell. -/
theorem hasSub_cons_false {pat : List Char} {c : Char} {rest : List Char}
    (h : hasSub pat (c :: rest) = false) :
    afterLead? pat (c :: rest) = none ∧ hasSub pat rest = false := by
  simp only [hasSub, Bool.or_eq_false_iff] at h
  exact ⟨Option.not_isSome_iff_eq_none.mp (by simp [h.1]), h.2⟩

/-- With no `{{` in sight, no block opener can match. -/
theorem blockOpenAt_of_no_brace (kw tl l : List Char)
    (hkw : kw = openPat ++ tl) (h : afterLead? openPat l = none) :
    blockOpenAt kw l = none := by
  have : afterLead? kw l = none := by
    rw [hkw, afterLead?_append, h]; rfl
  simp [blockOpenAt, this]

/-- With no `{{` in sight, the variable pattern cannot match. -/
theorem varAt_of_no_brace {l : List Char}
    (h : afterLead? openPat l = none) : varAt l = none := by
  simp [varAt, h]

/-- The each-blocks scan copies text containing no `{{` verbatim. -/
theorem eachScan_fix :
    ∀ l : List Char, hasSub openPat l = false →
    ∀ f : Nat, l.length < f → ∀ d, engineRun f (.eachBlocks l d) = some l := by
  intro l
  induction l with
  | nil =>
    intro _ f hf d
    obtain ⟨g, rfl⟩ : ∃ g, f = g + 1 := ⟨f - 1, by omega⟩
    simp [engineRun]
  | cons c rest ih =>
    intro h f hf d
    obtain ⟨g, rfl⟩ : ∃ g, f = g + 1 := ⟨f - 1, by omega⟩
    obtain ⟨h1, h2⟩ := hasSub_cons_false h
    have hb : blockOpenAt openEachPat (c :: rest) = none :=
      blockOpenAt_of_no_brace _ ['#', 'e', 'a', 'c', 'h'] _ rfl h1
    have hopen : eachOpenAt (c :: rest) = none := by
      simp [eachOpenAt, hb]
    simp only [engineRun, hopen]
    rw [ih h2 g (by simpa using Nat.lt_of_succ_lt_succ hf) d]
    rfl

/-- The if-blocks scan copies text containing no `{{` verbatim. -/
theorem ifScan_fix :
    ∀ l : List Char, hasSub openPat l = false →
    ∀ f : Nat, l.length < f → ∀ d, engineRun f (.ifBlocks l d) = some l := by
  intro l
  induction l with
  | nil =>
    intro _ f hf d
    obtain ⟨g, rfl⟩ : ∃ g, f = g + 1 := ⟨f - 1, by omega⟩
    simp [engineRun]
  | cons c rest ih =>
    intro h f hf d
    obtain ⟨g, rfl⟩ : ∃ g, f = g + 1 := ⟨f - 1, by omega⟩
    obtain ⟨h1, h2⟩ := hasSub_cons_false h
    have hb : blockOpenAt openIfPat (c :: rest) = none :=
      blockOpenAt_of_no_brace _ ['#', 'i', 'f'] _ rfl h1
    have hopen : ifOpenAt (c :: rest) = none := by
      simp [ifOpenAt, hb]
    simp only [engineRun, hopen]
    rw [ih h2 g (by simpa using Nat.lt_of_succ_lt_succ hf) d]
    rfl

/-- The variable scan copies text containing no `{{` verbatim. -/
theorem varScan_fix :
    ∀ l : List Char, hasSub openPat l = false →
    ∀ f : Nat, l.length < f → ∀ d, engineRun f (.varSubst l d) = some l := by
  intro l
  induction l with
  | nil =>
    intro _ f hf d
    obtain ⟨g, rfl⟩ : ∃ g, f = g + 1 := ⟨f - 1, by omega⟩
    simp [engineRun]
  | cons c rest ih =>
    intro h f hf d
    obtain ⟨g, rfl⟩ : ∃ g, f = g + 1 := ⟨f - 1, by omega⟩
    obtain ⟨h1, h2⟩ := hasSub_cons_false h
    simp only [engineRun, varAt_of_no_brace h1]
    rw [ih h2 g (by simpa using Nat.lt_of_succ_lt_succ hf) d]
    rfl

/-- The whole pipeline is the identity on text containing no `{{`. -/
theorem template_fix {l : List Char} (h : hasSub openPat l = false)
    {f : Nat} (hf : l.length + 2 ≤ f) (d : JsV) :
    engineRun f (.template l d) = some l := by
  obtain ⟨g, rfl⟩ : ∃ g, f = g + 1 := ⟨f - 1, by omega⟩
  have hg : l.length < g := by omega
  cases l with
  | nil => simp [engineRun]
  | cons c rest =>
    simp only [engineRun, List.isEmpty_cons, if_false, Bool.false_eq_true]
    rw [eachScan_fix _ h g hg d]
    dsimp only
    rw [ifScan_fix _ h g hg d]
    dsimp only
    rw [varScan_fix _ h g hg d]

end Blog

namespace Blog

open JsV

/-! ## Paginator lemmas -/


theorem calc_eq_spec (c t : Int) :
    calculatePagination c t 2 = paginationSpecView c t := by
  unfold calculatePagination paginationSpecView
  dsimp only
  have hS := max_choice (1 : Int) (c - 2)
  have hS1 := le_max_left (1 : Int) (c - 2)
  have hS2 := le_max_right (1 : Int) (c - 2)
  have hE := min_choice t (c + 2)
  have hE1 := min_le_left t (c + 2)
  have hE2 := min_le_right t (c + 2)
  generalize hsg : (1 : Int) ⊔ (c - 2) = s0 at hS hS1 hS2 ⊢
  generalize heg : t ⊓ (c + 2) = e0 at hE hE1 hE2 ⊢
  rw [show ((e0 - 4) ⊔ 1 : Int) = 1 ⊔ (e0 - 4) from max_comm _ _]
  have hWS := max_choice (1 : Int) (e0 - 4)
  have hWS1 := le_max_left (1 : Int) (e0 - 4)
  have hWS2 := le_max_right (1 : Int) (e0 - 4)
  generalize hwg : (1 : Int) ⊔ (e0 - 4) = w0 at hWS hWS1 hWS2 ⊢
  have hWE := min_choice (s0 + 4) t
  have hWE1 := min_le_left (s0 + 4) t
  have hWE2 := min_le_right (s0 + 4) t
  generalize hweg : (s0 + 4) ⊓ t = w1 at hWE hWE1 hWE2 ⊢
  have hcond : (e0 - s0 + 1 < 5 ∧ t > 4) ↔ (e0 - s0 < 4 ∧ t > 4) := by
    constructor <;> (rintro ⟨h1, h2⟩; exact ⟨by omega, h2⟩)
  by_cases hw : e0 - s0 < 4 ∧ t > 4
  · rw [if_pos hw, if_pos (hcond.mpr hw)]
    by_cases hs : s0 = 1
    · rw [if_pos hs]
      simp only [PaginationView.mk.injEq, decide_eq_decide, true_and]
      constructor <;> omega
    · rw [if_neg hs]
      by_cases he : e0 = t
      · rw [if_pos he]
        simp only [PaginationView.mk.injEq, decide_eq_decide, true_and]
        constructor <;> omega
      · rw [if_neg he]
        simp only [PaginationView.mk.injEq, decide_eq_decide, true_and]
        constructor <;> omega
  · rw [if_neg hw, if_neg (fun hk => hw (hcond.mp hk))]
    simp only [PaginationView.mk.injEq, decide_eq_decide, true_and]
    constructor <;> omega

end Blog

namespace Blog

open JsV

/-! ## Engine step lemmas (single unfoldings used to drive symbolic runs) -/

/-- Unfolding step for a nonempty template task. -/
theorem tpl_step (f : Nat) (t : List Char) (d : JsV) (h : t.isEmpty = false) :
    engineRun (f + 1) (.template t d) =
      match engineRun f (.eachBlocks t d) with
      | none => none
      | some p1 =>
        match engineRun f (.ifBlocks p1 d) with
        | none => none
        | some p2 => engineRun f (.varSubst p2 d) := by
  simp [engineRun, h]

/-- Unfolding step for an if-blocks scan whose head matches. -/
theorem ifb_match_step (f : Nat) (c : Char) (rest run ifC elseC after : List Char)
    (d : JsV) (h : ifOpenAt (c :: rest) = some (run, ifC, elseC, after)) :
    engineRun (f + 1) (.ifBlocks (c :: rest) d) =
      (engineRun f (.template (if evalCondition d run then ifC else elseC) d)).bind
        (fun rep =>
          (engineRun f (.ifBlocks after d)).map (fun tail => rep ++ tail)) := by
  simp only [engineRun, h]

/-- Unfolding step for an each-blocks scan whose head matches. -/
theorem each_match_step (f : Nat) (c : Char) (rest run content after : List Char)
    (d : JsV) (h : eachOpenAt (c :: rest) = some (run, content, after)) :
    engineRun (f + 1) (.eachBlocks (c :: rest) d) =
      match getNestedValue d (trimL run) with
      | some (vArr (x :: xs)) =>
        (engineRun f (.eachItems content d (x :: xs) 0 (x :: xs))).bind
          (fun rep =>
            (engineRun f (.eachBlocks after d)).map (fun tail => rep ++ tail))
      | _ => engineRun f (.eachBlocks after d) := by
  simp only [engineRun, h]

/-- Unfolding step for the per-item expansion. -/
theorem items_step (f : Nat) (body : List Char) (d : JsV) (all : List JsV)
    (idx : Nat) (x : JsV) (rem : List JsV) :
    engineRun (f + 1) (.eachItems body d all idx (x :: rem)) =
      (engineRun f (.template body (childContext d all idx x))).bind
        (fun r =>
          (engineRun f (.eachItems body d all (idx + 1) rem)).map
            (fun rest2 => r ++ rest2)) := by
  simp only [engineRun]

/-! ## Object-literal lookup lemmas -/

/-- The last value assigned to a key in an entry sequence. -/
def lastVal (es : List (String × JsV)) (k : String) : Option JsV :=
  lookupField es.reverse k

/-- Lookup distributes over append, first list first. -/
theorem lookupField_append (a b : List (String × JsV)) (k : String) :
    lookupField (a ++ b) k =
      match lookupField a k with
      | some v => some v
      | none => lookupField b k := by
  induction a with
  | nil => simp [lookupField]
  | cons e rest ih =>
    obtain ⟨k0, v0⟩ := e
    by_cases hk : k0 = k
    · simp [lookupField, hk]
    · simp [lookupField, hk, ih]

/-- Assignment wins on its own key. -/
theorem lookupField_setField_self (l : List (String × JsV)) (k : String)
    (v : JsV) : lookupField (setField l k v) k = some v := by
  induction l with
  | nil => simp [setField, lookupField]
  | cons e rest ih =>
    obtain ⟨k0, v0⟩ := e
    by_cases hk : k0 = k
    · simp [setField, hk, lookupField]
    · simp [setField, hk, lookupField, ih]

/-- Assignment leaves other keys untouched. -/
theorem lookupField_setField_ne (l : List (String × JsV)) (k k' : String)
    (v : JsV) (h : k' ≠ k) :
    lookupField (setField l k v) k' = lookupField l k' := by
  have h2 : ¬(k = k') := fun hh => h hh.symm
  induction l with
  | nil => simp [setField, lookupField, h2]
  | cons e rest ih =>
    obtain ⟨k0, v0⟩ := e
    by_cases hk : k0 = k
    · subst hk
      simp [setField, lookupField, h2]
    · simp [setField, hk, lookupField, ih]

/-- `lastVal` splits at an append, later entries first. -/
theorem lastVal_append (a b : List (String × JsV)) (k : String) :
    lastVal (a ++ b) k =
      match lastVal b k with
      | some v => some v
      | none => lastVal a k := by
  simp only [lastVal, List.reverse_append, lookupField_append]

/-- Folding assignments realises last-wins lookup. -/
theorem foldl_setField_lookup :
    ∀ (es : List (String × JsV)) (acc : List (String × JsV)) (k : String),
      lookupField (es.foldl (fun a e => setField a e.1 e.2) acc) k =
        match lastVal es k with
        | some v => some v
        | none => lookupField acc k := by
  intro es
  induction es with
  | nil => intro acc k; simp [lastVal, lookupField]
  | cons e rest ih =>
    intro acc k
    obtain ⟨k0, v0⟩ := e
    have hlast : lastVal ((k0, v0) :: rest) k =
        match lastVal rest k with
        | some v => some v
        | none => lookupField [(k0, v0)] k := by
      have : ((k0, v0) :: rest).reverse = rest.reverse ++ [(k0, v0)] := by
        simp
      simp only [lastVal, this, lookupField_append]
    rw [List.foldl_cons, ih, hlast]
    cases lastVal rest k with
    | some v => rfl
    | none =>
      by_cases hk : k = k0
      · subst hk
        simp [lookupField, lookupField_setField_self]
      · have hk2 : ¬(k0 = k) := fun hh => hk hh.symm
        simp [lookupField, hk2, lookupField_setField_ne _ _ _ _ hk]

/-- Object-literal lookup is last-wins lookup on the entry sequence. -/
theorem mkObjLit_lookup (es : List (String × JsV)) (k : String) :
    lookupField (mkObjLit es) k = lastVal es k := by
  rw [mkObjLit, foldl_setField_lookup]
  cases h : lastVal es k with
  | some v => rfl
  | none => simp [lookupField]

end Blog

namespace Blog

open JsV


/-! ## Claim C8 -/

/-- C8: for every `currentPage` and `totalPages`, the pagination window of
`calculatePagination` (with the default range 2) coincides with the
specification's description — start `max(1, current-2)`, end
`min(totalPages, current+2)`, widening toward the boundary not at the
edge when the span covers fewer than 5 pages while more than 4 exist,
`showFirst`/`showLast` exactly when page 1 / the last page is excluded,
and each ellipsis exactly when the gap to that boundary exceeds one page —
and the instance `currentPage = 5, totalPages = 10` shows pages
`[3,4,5,6,7]` with all four flags set. -/
theorem claim_C8_pagination :
    (∀ currentPage totalPages : Int,
      calculatePagination currentPage totalPages 2 =
        paginationSpecView currentPage totalPages) ∧
    calculatePagination 5 10 2 =
      { startPage := 3, endPage := 7, showFirst := true,
        showFirstEllipsis := true, showLast := true,
        showLastEllipsis := true } ∧
    visiblePages (calculatePagination 5 10 2) = [3, 4, 5, 6, 7] :=
  ⟨calc_eq_spec, by decide, by decide⟩

/-! ## Claim C9 -/

/-- C9 counterexample: template evaluation is NOT idempotent on its own
output. Against `{x: "{{y}}", y: "z"}`, evaluating `{{x}}` produces the
literal text `{{y}}`; evaluating that output against the same context
re-interprets it and yields `z`, not the output unchanged. -/
theorem claim_C9_counterexample :
    processTemplate 100 tplVarX reinterpretCtx =
      some "\x7b\x7by\x7d\x7d" ∧
    processTemplate 100 "\x7b\x7by\x7d\x7d" reinterpretCtx = some "z" ∧
    ("z" : String) ≠ "\x7b\x7by\x7d\x7d" :=
  ⟨by decide, by decide, by decide⟩

/-- C9 amended: evaluation is idempotent on outputs free of the directive
opener `{{`: whenever the engine's output contains no occurrence of `{{`,
re-evaluating that output against the same context returns it unchanged
(with any sufficient fuel). Substituted values may themselves introduce
`{{...}}`, which a second evaluation re-interprets, so idempotence fails
in general. -/
theorem claim_C9_amended (f f' : Nat) (t out : String) (d : JsV)
    (_hrun : processTemplate f t d = some out)
    (hfree : hasSub openPat out.data = false)
    (hfuel : out.data.length + 2 ≤ f') :
    processTemplate f' out d = some out := by
  unfold processTemplate
  rw [template_fix hfree hfuel d]
  rfl

/-- C9 amended, witnessed at `{{x}}` against `{x: "A"}`: the output "A"
contains no `{{` and re-evaluates to itself. -/
theorem claim_C9_amended_witness :
    processTemplate 9 "A" (vObj [("x", vStr "A")]) = some "A" :=
  claim_C9_amended 50 9 tplVarX "A" (vObj [("x", vStr "A")])
    (by decide) (by decide) (by decide)

/-! ## Claim C1 -/

/-- C1 counterexample: with the home-page task failing and every other
task able to succeed, `buildSite` does not complete the build with the
failing page type skipped — the error page is attempted and the error is
re-raised, so the run fails. -/
theorem claim_C1_counterexample :
    (buildSiteModel (.ok defaultConfigV) (.ok ()) (.ok ()) (.error "home failed")
        (.ok ()) (.ok ()) (.ok ()) (.ok ()) (.ok ()) (.ok ())).result =
      .error "home failed" ∧
    (buildSiteModel (.ok defaultConfigV) (.ok ()) (.ok ()) (.error "home failed")
        (.ok ()) (.ok ()) (.ok ()) (.ok ()) (.ok ()) (.ok ())).errorPageAttempted =
      true :=
  ⟨rfl, rfl⟩

/-- C1 amended: only the about page is skipped with a logged message; a
failure of any other page task (static assets, home, posts, tag pages,
tags index, sitemap), of the CSS step or of configuration loading makes
`buildSite` log, attempt the error page and re-raise. Precisely: the run
succeeds, with no error page, exactly when configuration, CSS and the six
re-throwing tasks all succeed — independently of the about outcome — and
the error page is attempted exactly when the run fails; a failing home
task is logged both by its builder and by the outer handler. -/
theorem claim_C1_amended :
    (∀ (cfgR : Except String JsV)
       (cssR assetsR homeR postsR tagPagesR tagsIndexR aboutR sitemapR
         errorPageR : Except String Unit),
      isOkE (buildSiteModel cfgR cssR assetsR homeR postsR tagPagesR
          tagsIndexR aboutR sitemapR errorPageR).result =
        (isOkE cfgR && isOkE cssR && isOkE assetsR && isOkE homeR &&
         isOkE postsR && isOkE tagPagesR && isOkE tagsIndexR &&
         isOkE sitemapR) ∧
      (buildSiteModel cfgR cssR assetsR homeR postsR tagPagesR tagsIndexR
          aboutR sitemapR errorPageR).errorPageAttempted =
        !(isOkE cfgR && isOkE cssR && isOkE assetsR && isOkE homeR &&
          isOkE postsR && isOkE tagPagesR && isOkE tagsIndexR &&
          isOkE sitemapR)) ∧
    (∀ e : String,
      ("Error building home page: " ++ e) ∈
        (buildSiteModel (.ok defaultConfigV) (.ok ()) (.ok ()) (.error e)
          (.ok ()) (.ok ()) (.ok ()) (.ok ()) (.ok ()) (.ok ())).logs ∧
      ("Error building site: " ++ e) ∈
        (buildSiteModel (.ok defaultConfigV) (.ok ()) (.ok ()) (.error e)
          (.ok ()) (.ok ()) (.ok ()) (.ok ()) (.ok ()) (.ok ())).logs) := by
  constructor
  · intro cfgR cssR assetsR homeR postsR tagPagesR tagsIndexR aboutR
      sitemapR errorPageR
    cases cfgR <;> cases cssR <;> cases assetsR <;> cases homeR <;>
      cases postsR <;> cases tagPagesR <;> cases tagsIndexR <;>
      cases sitemapR <;> exact ⟨rfl, rfl⟩
  · intro e
    constructor
    · simp [buildSiteModel, buildSiteFail, pageTaskRun, buildAboutPageRun,
        firstErrOf]
    · simp [buildSiteModel, buildSiteFail, pageTaskRun, buildAboutPageRun,
        firstErrOf]

end Blog

namespace Blog

open JsV


/-! ## Claim C2 -/

/-- C2 helper: a missing or unparseable configuration file (the inner
catch of `loadConfig`) never raises — the load falls back to the default
configuration, which passes validation, for every config-file location
and output-directory override. -/
theorem loadConfig_none_ok (basePath : String) (od : Option String) :
    isOkE (loadConfig none basePath od) = true := by
  unfold loadConfig
  by_cases hb : baseNameOf basePath = "blog" <;>
    cases od with
    | none =>
      simp [resolvePathsE, resolvePathField, defaultConfigV, getKeyV, getProp,
        lookupField, truthy, isAbsPath, resolveUnder, setKeyV, setField,
        addDerivedPropertiesE, validateConfigErrors, validateLeaf, sectionOf,
        natKey?, hb, afterLead?, isOkE, splitOnCh, getNestedValue,
        mkObjLit, spreadFields, lastVal]
    | some s =>
      by_cases ha : isAbsPath s = true <;>
        simp [resolvePathsE, resolvePathField, defaultConfigV, getKeyV, getProp,
          lookupField, truthy, isAbsPath, resolveUnder, setKeyV, setField,
          addDerivedPropertiesE, validateConfigErrors, validateLeaf, sectionOf,
          natKey?, hb, ha, afterLead?, isOkE, splitOnCh, getNestedValue,
          mkObjLit, spreadFields, lastVal]

/-- C2 counterexample: when the configuration file cannot be loaded at
all (missing or unparseable, modelled by `none`), `loadConfig` does NOT
raise — it warns and proceeds on the defaults — and the build entry point
runs to successful completion rather than aborting. -/
theorem claim_C2_counterexample :
    isOkE (loadConfig none "./blog" (some "./dist")) = true ∧
    (buildSiteModel (loadConfig none "./blog" (some "./dist")) (.ok ())
        (.ok ()) (.ok ()) (.ok ()) (.ok ()) (.ok ()) (.ok ()) (.ok ())
        (.ok ())).result = .ok () := by
  exact ⟨by decide, rfl⟩

/-- C2 amended: inability to read or parse the configuration file is
silently recovered by falling back to the default configuration (with a
warning), for every location and output override; `loadConfig` raises
only from the later stages — a merged configuration failing schema
validation (for example `postsPerPage: 0`), or a truthy non-string path
value making the path resolver throw — and when it does raise, the build
entry point attempts the error page and fails. -/
theorem claim_C2_amended :
    (∀ (basePath : String) (od : Option String),
      isOkE (loadConfig none basePath od) = true) ∧
    loadConfig (some invalidUserCfg) "./blog" none =
      .error "Invalid configuration" ∧
    loadConfig (some (vObj [("paths", vObj [("contentDir", vNum 5)])]))
        "./blog" none =
      .error "TypeError: path argument must be a string" ∧
    (∀ (e : String)
       (cssR assetsR homeR postsR tagPagesR tagsIndexR aboutR sitemapR
         errorPageR : Except String Unit),
      (buildSiteModel (.error e) cssR assetsR homeR postsR tagPagesR
          tagsIndexR aboutR sitemapR errorPageR).errorPageAttempted = true ∧
      isOkE (buildSiteModel (.error e) cssR assetsR homeR postsR tagPagesR
          tagsIndexR aboutR sitemapR errorPageR).result = false) :=
  ⟨loadConfig_none_ok, rfl, rfl,
   fun _ _ _ _ _ _ _ _ _ _ => ⟨rfl, rfl⟩⟩

end Blog

namespace Blog

open JsV


/-- Reading back the key just assigned. -/
theorem assocGet_assocSet_self {α : Type} (l : List (String × α)) (k : String)
    (v : α) : assocGet (assocSet l k v) k = some v := by
  induction l with
  | nil => simp [assocSet, assocGet]
  | cons e rest ih =>
    obtain ⟨k0, v0⟩ := e
    by_cases hk : k0 = k
    · simp [assocSet, hk, assocGet]
    · simp [assocSet, hk, assocGet, ih]

/-! ## Claim C6 -/

/-- C6 counterexample: under the default site configuration — which has
no `cacheTemplates` key, because `loadTemplate`'s local
`const config = getConfig()` shadows the template-module configuration —
a successful load is NOT memoized: the cache stays empty, and a second
call re-reads from storage (returning "BBB" after the file changed,
where a memoized loader would return "AAA"). -/
theorem claim_C6_counterexample :
    (loadTemplate siteTplDefault fsTplA [] "base").1 = "AAA" ∧
    (loadTemplate siteTplDefault fsTplA [] "base").2 = [] ∧
    (loadTemplate siteTplDefault fsTplB
        (loadTemplate siteTplDefault fsTplA [] "base").2 "base").1 = "BBB" :=
  ⟨rfl, rfl, rfl⟩

/-- C6 amended: the resolution order is as claimed — project override
first, then the built-in default, then a logged empty string — but
memoization is governed by the SITE configuration's `cacheTemplates`
property (the local `config` shadows the module configuration): with it
falsy or absent (the default) the cache is never written and every call
re-reads from storage; with it truthy a successful load is stored under
the resolved project-template path and a later call returns the cached
content without consulting storage; the module-level `updateConfig` flag
does not enable or disable lookup, it only clears the cache when turned
off. -/
theorem claim_C6_amended :
    (∀ (cfg : SiteTplConfig) (fsRead : String → Option String)
       (name tpl : String),
      (fsRead (templatePathOf cfg name) = some tpl →
        (loadTemplate cfg fsRead [] name).1 = tpl) ∧
      (fsRead (templatePathOf cfg name) = none →
        fsRead (engineDefaultPathOf name) = some tpl →
        (loadTemplate cfg fsRead [] name).1 = tpl) ∧
      (fsRead (templatePathOf cfg name) = none →
        fsRead (engineDefaultPathOf name) = none →
        (loadTemplate cfg fsRead [] name).1 = "")) ∧
    (∀ (cfg : SiteTplConfig) (fsRead : String → Option String)
       (cache : List (String × String)) (name : String),
      tplCacheEnabled cfg = false →
      (loadTemplate cfg fsRead cache name).2 = cache) ∧
    (∀ (cfg : SiteTplConfig) (fsRead fsRead2 : String → Option String)
       (cache : List (String × String)) (name tpl : String),
      tplCacheEnabled cfg = true →
      assocGet cache (templatePathOf cfg name) = none →
      fsRead (templatePathOf cfg name) = some tpl →
      (loadTemplate cfg fsRead cache name).2 =
        assocSet cache (templatePathOf cfg name) tpl ∧
      (tpl.data.isEmpty = false →
        (loadTemplate cfg fsRead2
          (assocSet cache (templatePathOf cfg name) tpl) name).1 = tpl)) ∧
    (∀ cache : List (String × String),
      (tplUpdateConfig false cache).2 = [] ∧
      (tplUpdateConfig true cache).2 = cache) := by
  refine ⟨?_, ?_, ?_, ?_⟩
  · intro cfg fsRead name tpl
    refine ⟨?_, ?_, ?_⟩
    · intro h1
      cases hc : tplCacheEnabled cfg <;>
        simp [loadTemplate, hc, assocGet, h1]
    · intro h1 h2
      cases hc : tplCacheEnabled cfg <;>
        simp [loadTemplate, hc, assocGet, h1, h2]
    · intro h1 h2
      cases hc : tplCacheEnabled cfg <;>
        simp [loadTemplate, hc, assocGet, h1, h2]
  · intro cfg fsRead cache name hc
    cases h1 : fsRead (templatePathOf cfg name) with
    | some tpl => simp [loadTemplate, hc, h1]
    | none =>
      cases h2 : fsRead (engineDefaultPathOf name) with
      | some tpl => simp [loadTemplate, hc, h1, h2]
      | none => simp [loadTemplate, hc, h1, h2]
  · intro cfg fsRead fsRead2 cache name tpl hc hmiss h1
    constructor
    · simp [loadTemplate, hc, hmiss, h1]
    · intro hne
      simp [loadTemplate, hc, assocGet_assocSet_self, hne]
  · intro cache
    exact ⟨rfl, rfl⟩



/-- C6 amended, witnessed: with `cacheTemplates: true` in the site
configuration, a successful load of "AAA" is stored in the cache, and a
second call returns "AAA" from the cache even though the file now reads
"BBB". -/
theorem claim_C6_amended_witness :
    (loadTemplate siteTplCaching fsTplA [] "base").2 =
      assocSet [] (templatePathOf siteTplCaching "base") "AAA" ∧
    (loadTemplate siteTplCaching fsTplB
        (assocSet [] (templatePathOf siteTplCaching "base") "AAA") "base").1 =
      "AAA" := by
  have h := claim_C6_amended.2.2.1 siteTplCaching fsTplA fsTplB [] "base" "AAA"
    (by decide) rfl rfl
  exact ⟨h.1, h.2 (by decide)⟩

end Blog

namespace Blog

open JsV


/-! ## Claim C4 -/

/-- C4 counterexample: a malformed condition does NOT always evaluate to
false. The three-token condition `x y z` has no recognised operator, but
the `default` switch case re-tests the truthiness of the WHOLE condition
text as a path: against `{"x y z": true}` the conditional takes the true
branch and renders "Y", where the claim requires "N". -/
theorem claim_C4_counterexample :
    processTemplate 100 tplIfThreeTok (vObj [("x y z", vBool true)]) =
      some "Y" ∧ ("Y" : String) ≠ "N" :=
  ⟨by decide, by decide⟩

/-- C4 amended: a whitespace-free condition is a truthiness test of the
resolved path, so `{{#if flag}}Y{{else}}N{{/if}}` renders "Y"/"N" by the
truthiness of `flag` (and the three concrete flag examples hold). A
condition with a literal space splits on whitespace runs; with one of the
four operators each operand resolves as a path but falls back to its
literal text whenever resolution is FALSY (not only when it is missing);
with three or more tokens and an unrecognised middle token the result is
the truthiness of the whole condition text resolved as a path (not
false); with exactly two tokens the source dereferences undefined and the
caught TypeError yields false. The chosen branch is evaluated against the
same context. -/
theorem claim_C4_amended :
    (∀ d : JsV,
      processTemplate 60 tplIfFlag d =
        some (if truthyOpt (getNestedValue d "flag".data) then "Y" else "N")) ∧
    (∀ d : JsV,
      processTemplate 60 tplIfCmp d =
        some (if jsLooseEq (resolveOperand d "a".data) (resolveOperand d "b".data)
          then "Y" else "N")) ∧
    (∀ d : JsV,
      processTemplate 60 tplIfThreeTok d =
        some (if truthyOpt (getNestedValue d "x y z".data) then "Y" else "N")) ∧
    (∀ d : JsV, processTemplate 60 tplIfTwoTok d = some "N") ∧
    processTemplate 60 tplIfFlag (vObj [("flag", vBool true)]) = some "Y" ∧
    processTemplate 60 tplIfFlag (vObj [("flag", vBool false)]) = some "N" ∧
    processTemplate 60 tplIfFlag (vObj []) = some "N" := by
  refine ⟨?_, ?_, ?_, ?_, by decide, by decide, by decide⟩
  · intro d
    have h1 : engineRun 59 (.eachBlocks "\x7b\x7b#if flag\x7d\x7dY\x7b\x7belse\x7d\x7dN\x7b\x7b/if\x7d\x7d".data d) =
        some ("\x7b\x7b#if flag\x7d\x7dY\x7b\x7belse\x7d\x7dN\x7b\x7b/if\x7d\x7d".data) := rfl
    have hopen : ifOpenAt ("\x7b\x7b#if flag\x7d\x7dY\x7b\x7belse\x7d\x7dN\x7b\x7b/if\x7d\x7d".data) =
        some (" flag".data, "Y".data, "N".data, []) := rfl
    have hcond : evalCondition d " flag".data =
        truthyOpt (getNestedValue d "flag".data) := rfl
    unfold processTemplate
    simp only [tplIfFlag]
    rw [tpl_step 59 _ _ (by rfl), h1]
    dsimp only
    rw [ifb_match_step 58 _ _ _ _ _ _ _ hopen, hcond]
    cases hv : truthyOpt (getNestedValue d "flag".data) <;> rfl
  · intro d
    have h1 : engineRun 59 (.eachBlocks "\x7b\x7b#if a == b\x7d\x7dY\x7b\x7belse\x7d\x7dN\x7b\x7b/if\x7d\x7d".data d) =
        some ("\x7b\x7b#if a == b\x7d\x7dY\x7b\x7belse\x7d\x7dN\x7b\x7b/if\x7d\x7d".data) := rfl
    have hopen : ifOpenAt ("\x7b\x7b#if a == b\x7d\x7dY\x7b\x7belse\x7d\x7dN\x7b\x7b/if\x7d\x7d".data) =
        some (" a == b".data, "Y".data, "N".data, []) := rfl
    have hcond : evalCondition d " a == b".data =
        jsLooseEq (resolveOperand d "a".data) (resolveOperand d "b".data) := rfl
    unfold processTemplate
    simp only [tplIfCmp]
    rw [tpl_step 59 _ _ (by rfl), h1]
    dsimp only
    rw [ifb_match_step 58 _ _ _ _ _ _ _ hopen, hcond]
    cases hv : jsLooseEq (resolveOperand d "a".data) (resolveOperand d "b".data) <;>
      rfl
  · intro d
    have h1 : engineRun 59 (.eachBlocks "\x7b\x7b#if x y z\x7d\x7dY\x7b\x7belse\x7d\x7dN\x7b\x7b/if\x7d\x7d".data d) =
        some ("\x7b\x7b#if x y z\x7d\x7dY\x7b\x7belse\x7d\x7dN\x7b\x7b/if\x7d\x7d".data) := rfl
    have hopen : ifOpenAt ("\x7b\x7b#if x y z\x7d\x7dY\x7b\x7belse\x7d\x7dN\x7b\x7b/if\x7d\x7d".data) =
        some (" x y z".data, "Y".data, "N".data, []) := rfl
    have hcond : evalCondition d " x y z".data =
        truthyOpt (getNestedValue d "x y z".data) := rfl
    unfold processTemplate
    simp only [tplIfThreeTok]
    rw [tpl_step 59 _ _ (by rfl), h1]
    dsimp only
    rw [ifb_match_step 58 _ _ _ _ _ _ _ hopen, hcond]
    cases hv : truthyOpt (getNestedValue d "x y z".data) <;> rfl
  · intro d
    have h1 : engineRun 59 (.eachBlocks "\x7b\x7b#if x y\x7d\x7dY\x7b\x7belse\x7d\x7dN\x7b\x7b/if\x7d\x7d".data d) =
        some ("\x7b\x7b#if x y\x7d\x7dY\x7b\x7belse\x7d\x7dN\x7b\x7b/if\x7d\x7d".data) := rfl
    have hopen : ifOpenAt ("\x7b\x7b#if x y\x7d\x7dY\x7b\x7belse\x7d\x7dN\x7b\x7b/if\x7d\x7d".data) =
        some (" x y".data, "Y".data, "N".data, []) := rfl
    have hcond : evalCondition d " x y".data = false := rfl
    unfold processTemplate
    simp only [tplIfTwoTok]
    rw [tpl_step 59 _ _ (by rfl), h1]
    dsimp only
    rw [ifb_match_step 58 _ _ _ _ _ _ _ hopen, hcond]
    rfl

end Blog
namespace Blog
open JsV

/-- Per-item expansion of the body `{{v}}` over elements `{v: s}`: the
results are the element strings, concatenated in sequence order. -/
theorem eachItems_concat :
    ∀ (ss : List String) (d : JsV) (all : List JsV) (idx : Nat),
      Computes (.eachItems "\x7b\x7bv\x7d\x7d".data d all idx (ss.map vItem))
        ((ss.map String.data).flatten) := by
  intro ss
  induction ss with
  | nil => intro d all idx; exact ⟨1, rfl⟩
  | cons s rest ih =>
    intro d all idx
    obtain ⟨f, hf⟩ := ih d all (idx + 1)
    refine ⟨max 12 f + 1, ?_⟩
    simp only [List.map_cons]
    rw [items_step]
    have hitem : engineRun 12
        (.template "\x7b\x7bv\x7d\x7d".data (childContext d all idx (vItem s))) =
        some (s.data ++ []) := rfl
    have hitem2 := engineRun_mono 12 (max 12 f) (le_max_left _ _) _ _ hitem
    have hrest := engineRun_mono f (max 12 f) (le_max_right _ _) _ _ hf
    rw [hitem2]
    simp [hrest]

/-- The lookups backing the child context: `_index` is bound to
`items.indexOf(item)` — the position of the first strictly-equal
element — and `_parent` to the enclosing context, whatever the element
contributes by spread. -/
theorem childContext_reserved (parent : JsV) (all : List JsV) (idx : Nat)
    (item : JsV) :
    getNestedValue (childContext parent all idx item) "_index".data =
      some (vNum (Int.ofNat (jsIndexOf all idx))) ∧
    getNestedValue (childContext parent all idx item) "_parent".data =
      some parent := by
  constructor <;>
    simp [childContext, getNestedValue, splitOnCh, truthy, getProp,
      mkObjLit_lookup, lastVal_append, lastVal, lookupField,
      List.reverse_append]

end Blog

namespace Blog
open JsV

end Blog
namespace Blog
open JsV

/-- The whole `{{#each xs}}{{v}}{{/each}}` template over a non-empty
sequence of `{v: s}` items whose strings introduce no directive opener:
the result is the concatenation of the element strings in order. -/
theorem eachTemplate_concat (ss : List String) (hne : ss ≠ [])
    (hfree : hasSub openPat ((ss.map String.data).flatten) = false) :
    ∃ fuel, processTemplate fuel tplEachV (vObj [("xs", vArr (ss.map vItem))]) =
      some (String.mk ((ss.map String.data).flatten)) := by
  obtain ⟨s0, rest, rfl⟩ : ∃ a l, ss = a :: l := by
    cases ss with
    | nil => exact absurd rfl hne
    | cons a l => exact ⟨a, l, rfl⟩
  obtain ⟨fi, hfi⟩ :=
    eachItems_concat (s0 :: rest) (vObj [("xs", vArr ((s0 :: rest).map vItem))])
      ((s0 :: rest).map vItem) 0
  have hG1a : fi ≤ max fi (((List.map String.data (s0 :: rest)).flatten).length + 1) :=
    le_max_left _ _
  have hG1b : ((List.map String.data (s0 :: rest)).flatten).length + 1 ≤
      max fi (((List.map String.data (s0 :: rest)).flatten).length + 1) :=
    le_max_right _ _
  refine ⟨max fi (((List.map String.data (s0 :: rest)).flatten).length + 1) + 2, ?_⟩
  unfold processTemplate
  simp only [tplEachV]
  rw [tpl_step _ _ _ (by rfl)]
  have hopen : eachOpenAt
      ("\x7b\x7b#each xs\x7d\x7d\x7b\x7bv\x7d\x7d\x7b\x7b/each\x7d\x7d".data) =
      some (" xs".data, "\x7b\x7bv\x7d\x7d".data, []) := rfl
  rw [each_match_step _ _ _ _ _ _ _ hopen]
  have hres : getNestedValue (vObj [("xs", vArr ((s0 :: rest).map vItem))])
      (trimL " xs".data) = some (vArr (vItem s0 :: rest.map vItem)) := rfl
  rw [hres]
  dsimp only
  have hitems2 : engineRun
      (max fi (((List.map String.data (s0 :: rest)).flatten).length + 1))
      (.eachItems ['\x7b', '\x7b', 'v', '\x7d', '\x7d']
        (vObj [("xs", vArr (List.map vItem (s0 :: rest)))])
        (vItem s0 :: List.map vItem rest) 0 (vItem s0 :: List.map vItem rest)) =
      some ((List.map String.data (s0 :: rest)).flatten) :=
    engineRun_mono fi _ hG1a _ _ hfi
  rw [hitems2]
  have hniltask : engineRun
      (max fi (((List.map String.data (s0 :: rest)).flatten).length + 1))
      (.eachBlocks [] (vObj [("xs", vArr (List.map vItem (s0 :: rest)))])) =
      some [] :=
    eachScan_fix [] (by decide) _ (Nat.lt_of_lt_of_le (Nat.succ_pos _) hG1b) _
  rw [hniltask]
  have hJfix1 : engineRun
      (max fi (((List.map String.data (s0 :: rest)).flatten).length + 1) + 1)
      (.ifBlocks ((List.map String.data (s0 :: rest)).flatten ++ [])
        (vObj [("xs", vArr (List.map vItem (s0 :: rest)))])) =
      some ((List.map String.data (s0 :: rest)).flatten) := by
    rw [List.append_nil]
    exact ifScan_fix _ hfree _ (Nat.lt_succ_of_le (Nat.le_of_succ_le hG1b)) _
  have hJfix2 : engineRun
      (max fi (((List.map String.data (s0 :: rest)).flatten).length + 1) + 1)
      (.varSubst ((List.map String.data (s0 :: rest)).flatten)
        (vObj [("xs", vArr (List.map vItem (s0 :: rest)))])) =
      some ((List.map String.data (s0 :: rest)).flatten) :=
    varScan_fix _ hfree _ (Nat.lt_succ_of_le (Nat.le_of_succ_le hG1b)) _
  simp only [Option.bind, Option.map, hJfix1]
  rw [hJfix2]

/-- The `{{#each xs}}` directive renders as the empty string whenever the
path does not resolve to a non-empty array. -/
theorem eachTemplate_empty (d : JsV)
    (h : match getNestedValue d "xs".data with
         | some (vArr (_ :: _)) => False
         | _ => True) :
    processTemplate 40 tplEachV d = some "" := by
  unfold processTemplate
  simp only [tplEachV]
  rw [tpl_step 39 _ _ (by rfl)]
  have hopen : eachOpenAt
      ("\x7b\x7b#each xs\x7d\x7d\x7b\x7bv\x7d\x7d\x7b\x7b/each\x7d\x7d".data) =
      some (" xs".data, "\x7b\x7bv\x7d\x7d".data, []) := rfl
  rw [each_match_step 38 _ _ _ _ _ _ hopen]
  have htrim : trimL " xs".data = "xs".data := rfl
  rw [htrim]
  cases hres : getNestedValue d "xs".data with
  | none => rfl
  | some v =>
    cases v with
    | vArr xs =>
      cases xs with
      | nil => rfl
      | cons x tail =>
        rw [hres] at h
        exact (h : False).elim
    | vStr s => rfl
    | vNum n => rfl
    | vBool b => rfl
    | vNull => rfl
    | vObj fs => rfl
    | vFun r => rfl

end Blog
namespace Blog
open JsV

/-- C5 counterexample: `_index` is `items.indexOf(item)`, the position of
the first strictly-equal element, so over the duplicate sequence
`["a","a"]` the directive `\x7b\x7b#each xs\x7d\x7d\x7b\x7b_index\x7d\x7d\x7b\x7b/each\x7d\x7d`
renders "00", not the per-position "01" the specification promises. -/
theorem claim_C5_counterexample :
    processTemplate 100 tplEachIndex
      (vObj [("xs", vArr [vStr "a", vStr "a"])]) = some "00" ∧
    ("00" : String) ≠ "01" := ⟨rfl, by decide⟩

/-- C5 (amended): a path that does not resolve to a non-empty array
renders as the empty string; over a non-empty sequence the body is
evaluated per element against a child context carrying the element's own
fields, `_parent` bound to the enclosing context, and `_index` bound to
`items.indexOf(item)` — the position of the first strictly-equal element,
which is the element's own position only when no earlier element is
strictly equal — and the results are concatenated in sequence order; in
particular `\x7b\x7b#each xs\x7d\x7d\x7b\x7bv\x7d\x7d\x7b\x7b/each\x7d\x7d`
against `\x7bxs: [\x7bv:"a"\x7d,\x7bv:"b"\x7d]\x7d` yields "ab" and
against `\x7bxs: []\x7d` yields "". -/
theorem claim_C5_amended (ss : List String) (hne : ss ≠ [])
    (hfree : hasSub openPat ((ss.map String.data).flatten) = false)
    (d : JsV)
    (hempty : match getNestedValue d "xs".data with
              | some (vArr (_ :: _)) => False
              | _ => True) :
    (∃ fuel, processTemplate fuel tplEachV (vObj [("xs", vArr (ss.map vItem))]) =
        some (String.mk ((ss.map String.data).flatten))) ∧
    processTemplate 40 tplEachV d = some "" ∧
    (∀ parent all idx item,
      getNestedValue (childContext parent all idx item) "_index".data =
        some (vNum (Int.ofNat (jsIndexOf all idx))) ∧
      getNestedValue (childContext parent all idx item) "_parent".data =
        some parent) ∧
    processTemplate 100 tplEachV
      (vObj [("xs", vArr [vItem "a", vItem "b"])]) = some "ab" ∧
    processTemplate 40 tplEachV (vObj [("xs", vArr [])]) = some "" :=
  ⟨eachTemplate_concat ss hne hfree, eachTemplate_empty d hempty,
   fun p a i it => childContext_reserved p a i it, rfl, rfl⟩

/-- C5 witness: the amended theorem at the concrete sequence ["a","b"]
and the empty object context. -/
theorem claim_C5_amended_witness :
    (∃ fuel, processTemplate fuel tplEachV
        (vObj [("xs", vArr (["a","b"].map vItem))]) =
      some (String.mk ((["a","b"].map String.data).flatten))) ∧
    processTemplate 40 tplEachV (vObj []) = some "" ∧
    (∀ parent all idx item,
      getNestedValue (childContext parent all idx item) "_index".data =
        some (vNum (Int.ofNat (jsIndexOf all idx))) ∧
      getNestedValue (childContext parent all idx item) "_parent".data =
        some parent) ∧
    processTemplate 100 tplEachV
      (vObj [("xs", vArr [vItem "a", vItem "b"])]) = some "ab" ∧
    processTemplate 40 tplEachV (vObj [("xs", vArr [])]) = some "" :=
  claim_C5_amended ["a", "b"] (by decide) (by rfl) (vObj []) trivial

end Blog
namespace Blog
open JsV

/-- Replacing an occurrence by the empty string removes at most
`pat.length` characters. -/
theorem replaceFirstSub_nil_length (pat l : List Char) :
    l.length ≤ (replaceFirstSub pat [] l).length + pat.length := by
  unfold replaceFirstSub
  cases hs : splitFirst pat l with
  | none =>
    dsimp only
    omega
  | some pq =>
    obtain ⟨pre, post⟩ := pq
    have hdec := splitFirst_eq hs
    subst hdec
    simp [List.length_append]
    omega

/-- A filename of length at least 4 yields a non-empty synthesized title. -/
theorem synthTitle_ne_nil (filename : String) (h4 : 4 ≤ filename.data.length) :
    (synthTitle filename).data ≠ [] := by
  have hlen : filename.data.length ≤
      (replaceFirstSub ['.', 'm', 'd'] [] filename.data).length + 3 :=
    replaceFirstSub_nil_length ['.', 'm', 'd'] filename.data
  intro hcon
  have hdata : (synthTitle filename).data =
      replaceAllCh '-' ' ' (replaceFirstSub ['.', 'm', 'd'] [] filename.data) := rfl
  rw [hdata] at hcon
  have hz : (replaceFirstSub ['.', 'm', 'd'] [] filename.data).length = 0 := by
    have hc := congrArg List.length hcon
    simpa [replaceAllCh] using hc
  omega

/-- A key of the assigned object is a key of the object or the assigned
key. -/
theorem mem_keys_setField {l : List (String × JsV)} {k k' : String} {v : JsV}
    (h : k' ∈ (setField l k v).map Prod.fst) :
    k' ∈ l.map Prod.fst ∨ k' = k := by
  induction l with
  | nil => simpa [setField] using h
  | cons e rest ih =>
    obtain ⟨k0, v0⟩ := e
    by_cases hk : k0 = k
    · simp only [setField, if_pos hk, List.map_cons, List.mem_cons] at h
      simp only [List.map_cons, List.mem_cons]
      tauto
    · simp only [setField, if_neg hk, List.map_cons, List.mem_cons] at h
      simp only [List.map_cons, List.mem_cons]
      rcases h with h | h
      · tauto
      · rcases ih h with h2 | h2 <;> tauto

/-- Assignment preserves key uniqueness. -/
theorem keysNodup_setField (l : List (String × JsV)) (k : String) (v : JsV)
    (h : (l.map Prod.fst).Nodup) : ((setField l k v).map Prod.fst).Nodup := by
  induction l with
  | nil => simp [setField]
  | cons e rest ih =>
    obtain ⟨k0, v0⟩ := e
    simp only [List.map_cons, List.nodup_cons] at h
    by_cases hk : k0 = k
    · subst hk
      simp only [setField, eq_self_iff_true, if_true, List.map_cons,
        List.nodup_cons]
      exact ⟨h.1, h.2⟩
    · simp only [setField, if_neg hk, List.map_cons, List.nodup_cons]
      refine ⟨?_, ih h.2⟩
      intro hmem
      rcases mem_keys_setField hmem with h2 | h2
      · exact h.1 h2
      · exact hk h2

/-- Folding assignments preserves key uniqueness. -/
theorem foldl_setField_nodup (es : List (String × JsV)) :
    ∀ acc, (acc.map Prod.fst).Nodup →
      ((es.foldl (fun a e => setField a e.1 e.2) acc).map Prod.fst).Nodup := by
  induction es with
  | nil => intro acc h; simpa using h
  | cons e rest ih =>
    intro acc h
    simp only [List.foldl_cons]
    exact ih _ (keysNodup_setField _ _ _ h)

/-- Object literals have unique keys. -/
theorem mkObjLit_keys_nodup (es : List (String × JsV)) :
    ((mkObjLit es).map Prod.fst).Nodup :=
  foldl_setField_nodup es [] (by simp)

/-- Lookup misses keys the object does not carry. -/
theorem lookupField_eq_none_of_not_mem {l : List (String × JsV)} {k : String}
    (h : k ∉ l.map Prod.fst) : lookupField l k = none := by
  induction l with
  | nil => rfl
  | cons e rest ih =>
    obtain ⟨k0, v0⟩ := e
    simp only [List.map_cons, List.mem_cons, not_or] at h
    have hne : k0 ≠ k := fun he => h.1 he.symm
    simp [lookupField, hne, ih h.2]

/-- Under unique keys, first-match lookup and last-entry lookup agree. -/
theorem lookupField_eq_lastVal {l : List (String × JsV)}
    (h : (l.map Prod.fst).Nodup) (k : String) :
    lookupField l k = lastVal l k := by
  induction l with
  | nil => rfl
  | cons e rest ih =>
    obtain ⟨k0, v0⟩ := e
    simp only [List.map_cons, List.nodup_cons] at h
    have hrec := ih h.2
    simp only [lastVal, List.reverse_cons, lookupField_append]
    by_cases hk : k0 = k
    · subst hk
      have hnone : lookupField rest.reverse k0 = none := by
        apply lookupField_eq_none_of_not_mem
        simpa using h.1
      simp [lookupField, hnone]
    · simp only [lookupField, if_neg hk]
      rw [hrec]
      simp only [lastVal]
      cases hrev : lookupField rest.reverse k with
      | some v => simp
      | none => simp [lookupField, hk]

/-- Spread-last: every key the (defaulted) frontmatter object carries
reaches the final post object with the frontmatter object's value,
overriding the computed field of the same name. -/
theorem postObject_lookup_mem (cfg : ContentCfg)
    (parse : String → Except Unit String) (fmtDate : JsV → String)
    (pd : List (String × JsV)) (mc fn : String)
    (hn : (pd.map Prod.fst).Nodup) (k : String) (v : JsV)
    (h : lookupField pd k = some v) :
    lookupField (postObject cfg parse fmtDate pd mc fn) k = some v := by
  unfold postObject
  dsimp only
  rw [mkObjLit_lookup, lastVal_append]
  have h2 : lastVal pd k = some v := (lookupField_eq_lastVal hn k) ▸ h
  rw [h2]

/-- When the frontmatter object carries no `content` key, the final
`content` field is the extracted markdown body. -/
theorem postObject_content_absent (cfg : ContentCfg)
    (parse : String → Except Unit String) (fmtDate : JsV → String)
    (pd : List (String × JsV)) (mc fn : String)
    (h : lastVal pd "content" = none) :
    lookupField (postObject cfg parse fmtDate pd mc fn) "content" =
      some (vStr mc) := by
  unfold postObject
  dsimp only
  rw [mkObjLit_lookup, lastVal_append, h]
  rfl

end Blog
namespace Blog
open JsV

/-- The author-defaulting step of `processPostFile`: it never logs, only
ever touches the `author` key, and preserves key uniqueness. -/
theorem authorStep_spec (cfg : ContentCfg) (l : List (String × JsV))
    (w : List String) :
    ((if truthyOpt (lookupField l "author") = true then (l, w)
      else
        match cfg.defaultAuthor with
        | some da => if truthy da = true then (setField l "author" da, w) else (l, w)
        | none => (l, w)).2 = w) ∧
    (∀ k, k ≠ "author" →
      lookupField (if truthyOpt (lookupField l "author") = true then (l, w)
        else
          match cfg.defaultAuthor with
          | some da => if truthy da = true then (setField l "author" da, w) else (l, w)
          | none => (l, w)).1 k = lookupField l k) ∧
    ((l.map Prod.fst).Nodup →
      ((if truthyOpt (lookupField l "author") = true then (l, w)
        else
          match cfg.defaultAuthor with
          | some da => if truthy da = true then (setField l "author" da, w) else (l, w)
          | none => (l, w)).1.map Prod.fst).Nodup) := by
  by_cases h : truthyOpt (lookupField l "author") = true
  · simp [h]
  · simp only [if_neg h]
    cases cfg.defaultAuthor with
    | none => exact ⟨rfl, fun k _ => rfl, fun hn => hn⟩
    | some da =>
      by_cases h4 : truthy da = true
      · simp only [if_pos h4]
        refine ⟨by trivial, fun k hk => lookupField_setField_ne _ _ _ _ hk,
          fun hn => keysNodup_setField _ _ _ hn⟩
      · simp [if_neg h4]

/-- The defaulting pass of `processPostFile`: its result has unique keys,
a truthy `title` and a truthy `date` (given a non-empty synthesized title
and a non-empty modification date), and it logs the missing-date and
missing-title warnings exactly when the frontmatter's `date`/`title` are
falsy. -/
theorem postDataDefaults_spec (cfg : ContentCfg) (data : JsV)
    (mtimeIso filename : String)
    (ht : (synthTitle filename).data ≠ [])
    (hd : (isoDatePart mtimeIso).data ≠ []) :
    (((postDataDefaults cfg data mtimeIso filename).1.map Prod.fst).Nodup) ∧
    truthyOpt (lookupField (postDataDefaults cfg data mtimeIso filename).1
      "title") = true ∧
    truthyOpt (lookupField (postDataDefaults cfg data mtimeIso filename).1
      "date") = true ∧
    (postDataDefaults cfg data mtimeIso filename).2 =
      (if truthyOpt (lookupField (mkObjLit (spreadFields data)) "date") = true
       then []
       else ["Warning: Missing date in " ++ filename ++
         ", using file modification date"]) ++
      (if truthyOpt (lookupField (mkObjLit (spreadFields data)) "title") = true
       then []
       else ["Warning: Missing title in " ++ filename ++
         ", using normalized filename"]) := by
  have htt : truthy (vStr (synthTitle filename)) = true := by
    simp [truthy, List.isEmpty_iff, ht]
  have hdt : truthy (vStr (isoDatePart mtimeIso)) = true := by
    simp [truthy, List.isEmpty_iff, hd]
  unfold postDataDefaults
  dsimp only
  by_cases h1 : truthyOpt (lookupField (mkObjLit (spreadFields data)) "date") =
      true
  · rw [if_pos h1]
    dsimp only
    by_cases h2 : truthyOpt (lookupField (mkObjLit (spreadFields data))
        "title") = true
    · rw [if_pos h2]
      dsimp only
      obtain ⟨ha2, ha1, han⟩ := authorStep_spec cfg (mkObjLit (spreadFields data)) []
      refine ⟨han (mkObjLit_keys_nodup _), ?_, ?_, ?_⟩
      · rw [ha1 "title" (by decide)]; exact h2
      · rw [ha1 "date" (by decide)]; exact h1
      · rw [ha2]; simp [h1, h2]
    · rw [if_neg h2]
      dsimp only
      obtain ⟨ha2, ha1, han⟩ := authorStep_spec cfg
        (setField (mkObjLit (spreadFields data)) "title"
          (vStr (synthTitle filename))) ([] ++ ["Warning: Missing title in " ++
          filename ++ ", using normalized filename"])
      refine ⟨han (keysNodup_setField _ _ _ (mkObjLit_keys_nodup _)), ?_, ?_, ?_⟩
      · rw [ha1 "title" (by decide), lookupField_setField_self]
        exact htt
      · rw [ha1 "date" (by decide),
          lookupField_setField_ne _ _ _ _ (by decide)]
        exact h1
      · rw [ha2]; simp [h1, h2]
  · rw [if_neg h1]
    dsimp only
    have htEq : lookupField (setField (mkObjLit (spreadFields data)) "date"
        (vStr (isoDatePart mtimeIso))) "title" =
        lookupField (mkObjLit (spreadFields data)) "title" :=
      lookupField_setField_ne _ _ _ _ (by decide)
    rw [htEq]
    by_cases h2 : truthyOpt (lookupField (mkObjLit (spreadFields data))
        "title") = true
    · rw [if_pos h2]
      dsimp only
      obtain ⟨ha2, ha1, han⟩ := authorStep_spec cfg
        (setField (mkObjLit (spreadFields data)) "date"
          (vStr (isoDatePart mtimeIso))) ["Warning: Missing date in " ++
          filename ++ ", using file modification date"]
      refine ⟨han (keysNodup_setField _ _ _ (mkObjLit_keys_nodup _)), ?_, ?_, ?_⟩
      · rw [ha1 "title" (by decide), htEq]; exact h2
      · rw [ha1 "date" (by decide), lookupField_setField_self]
        exact hdt
      · rw [ha2]; simp [h1, h2]
    · rw [if_neg h2]
      dsimp only
      obtain ⟨ha2, ha1, han⟩ := authorStep_spec cfg
        (setField (setField (mkObjLit (spreadFields data)) "date"
          (vStr (isoDatePart mtimeIso))) "title" (vStr (synthTitle filename)))
        (["Warning: Missing date in " ++ filename ++
          ", using file modification date"] ++
         ["Warning: Missing title in " ++ filename ++
          ", using normalized filename"])
      refine ⟨han (keysNodup_setField _ _ _
        (keysNodup_setField _ _ _ (mkObjLit_keys_nodup _))), ?_, ?_, ?_⟩
      · rw [ha1 "title" (by decide), lookupField_setField_self]
        exact htt
      · rw [ha1 "date" (by decide),
          lookupField_setField_ne _ _ _ _ (by decide),
          lookupField_setField_self]
        exact hdt
      · rw [ha2]; simp [h1, h2]

end Blog
namespace Blog
open JsV

/-- C7 counterexample: for the filename ".md" the synthesized title is
the empty string, so a post missing its title in the frontmatter DOES end
up with an empty title (the warning notwithstanding). -/
theorem claim_C7_counterexample :
    ∃ obj, (processPostFile cfgPlain fmNone parseMark fmtFixed (some "hello")
        "2024-05-06T00:00:00.000Z" ".md").1 = some obj ∧
      lookupField obj "title" = some (vStr "") :=
  ⟨_, rfl, rfl⟩

/-- C7 (amended): whenever the source file is readable, the filename has
at least 4 characters (every stem-named `*.md` file except the bare
".md"), and the modification timestamp has a non-empty date part, the
final post object carries a present, truthy `title` and `date` (so
neither is absent, undefined, or an empty string), and the missing-date /
missing-title console warnings are logged exactly when the frontmatter's
`date` / `title` are falsy. For the excluded filename ".md" the
synthesized title is the empty string, so the invariant as stated in the
specification fails there. -/
theorem claim_C7_amended (cfg : ContentCfg) (fm : String → Option (JsV × String))
    (parse : String → Except Unit String) (fmtDate : JsV → String)
    (content mtimeIso filename : String)
    (h4 : 4 ≤ filename.data.length)
    (hiso : (isoDatePart mtimeIso).data ≠ []) :
    ∃ obj t dv,
      (processPostFile cfg fm parse fmtDate (some content) mtimeIso filename).1 =
        some obj ∧
      lookupField obj "title" = some t ∧ truthy t = true ∧
      lookupField obj "date" = some dv ∧ truthy dv = true ∧
      (processPostFile cfg fm parse fmtDate (some content) mtimeIso filename).2 =
        (if truthyOpt (lookupField
            (mkObjLit (spreadFields (extractFrontmatter fm content).1)) "date") =
            true then []
         else ["Warning: Missing date in " ++ filename ++
           ", using file modification date"]) ++
        (if truthyOpt (lookupField
            (mkObjLit (spreadFields (extractFrontmatter fm content).1)) "title") =
            true then []
         else ["Warning: Missing title in " ++ filename ++
           ", using normalized filename"]) := by
  have ht := synthTitle_ne_nil filename h4
  obtain ⟨hnd, htit, hdat, hw⟩ := postDataDefaults_spec cfg
    (extractFrontmatter fm content).1 mtimeIso filename ht hiso
  cases hlt : lookupField
      (postDataDefaults cfg (extractFrontmatter fm content).1 mtimeIso
        filename).1 "title" with
  | none => rw [hlt] at htit; simp [truthyOpt] at htit
  | some t =>
    cases hld : lookupField
        (postDataDefaults cfg (extractFrontmatter fm content).1 mtimeIso
          filename).1 "date" with
    | none => rw [hld] at hdat; simp [truthyOpt] at hdat
    | some dv =>
      rw [hlt] at htit
      rw [hld] at hdat
      refine ⟨postObject cfg parse fmtDate
        (postDataDefaults cfg (extractFrontmatter fm content).1 mtimeIso
          filename).1 (extractFrontmatter fm content).2 filename, t, dv,
        rfl, ?_, htit, ?_, hdat, hw⟩
      · exact postObject_lookup_mem cfg parse fmtDate _ _ _ hnd _ _ hlt
      · exact postObject_lookup_mem cfg parse fmtDate _ _ _ hnd _ _ hld

/-- C7 witness: the amended theorem at a concrete readable post with no
frontmatter, the filename "a.md", and a fixed modification time. -/
theorem claim_C7_amended_witness :
    4 ≤ ("a.md" : String).data.length ∧
    (isoDatePart "2024-05-06T00:00:00.000Z").data ≠ [] ∧
    ∃ obj t dv,
      (processPostFile cfgPlain fmNone parseMark fmtFixed (some "hello")
        "2024-05-06T00:00:00.000Z" "a.md").1 = some obj ∧
      lookupField obj "title" = some t ∧ truthy t = true ∧
      lookupField obj "date" = some dv ∧ truthy dv = true ∧
      (processPostFile cfgPlain fmNone parseMark fmtFixed (some "hello")
        "2024-05-06T00:00:00.000Z" "a.md").2 =
        (if truthyOpt (lookupField
            (mkObjLit (spreadFields (extractFrontmatter fmNone "hello").1))
            "date") = true then []
         else ["Warning: Missing date in " ++ "a.md" ++
           ", using file modification date"]) ++
        (if truthyOpt (lookupField
            (mkObjLit (spreadFields (extractFrontmatter fmNone "hello").1))
            "title") = true then []
         else ["Warning: Missing title in " ++ "a.md" ++
           ", using normalized filename"]) :=
  ⟨by decide, by decide,
   claim_C7_amended cfgPlain fmNone parseMark fmtFixed "hello"
     "2024-05-06T00:00:00.000Z" "a.md" (by decide) (by decide)⟩

end Blog
namespace Blog
open JsV

/-- C10 counterexample: the final `content` field is NOT taken from the
defaulted frontmatter data - with no `content` key in the frontmatter the
defaulted object carries none, yet the final object's `content` is the
extracted markdown body. -/
theorem claim_C10_counterexample :
    lookupField (postDataDefaults cfgPlain
      (extractFrontmatter fmNone "hello").1 "2024-05-06T00:00:00.000Z"
      "a.md").1 "content" = none ∧
    ∃ obj, (processPostFile cfgPlain fmNone parseMark fmtFixed (some "hello")
        "2024-05-06T00:00:00.000Z" "a.md").1 = some obj ∧
      lookupField obj "content" = some (vStr "hello") :=
  ⟨rfl, _, rfl, rfl⟩

/-- C10 (amended): `...postData` is spread last, so EVERY key of the
defaulted frontmatter object reaches the final post object with the
frontmatter object's value, overriding any derived field of the same name
(url, html, readingTime, showReadingTime, formattedDate, file - and also
content); when the frontmatter carries no `content` key the final
`content` is the extracted markdown body, not a defaulted value; a
frontmatter `content: "SPOOF"` overrides the body while `title` keeps its
frontmatter value. -/
theorem claim_C10_amended (cfg : ContentCfg)
    (parse : String → Except Unit String) (fmtDate : JsV → String)
    (pd : List (String × JsV)) (mc fn : String)
    (hn : (pd.map Prod.fst).Nodup) :
    (∀ k v, lookupField pd k = some v →
      lookupField (postObject cfg parse fmtDate pd mc fn) k = some v) ∧
    (lastVal pd "content" = none →
      lookupField (postObject cfg parse fmtDate pd mc fn) "content" =
        some (vStr mc)) ∧
    (∃ obj, (processPostFile cfgPlain fmSpoof parseMark fmtFixed (some "hello")
        "2024-05-06T00:00:00.000Z" "a.md").1 = some obj ∧
      lookupField obj "content" = some (vStr "SPOOF") ∧
      lookupField obj "title" = some (vStr "T")) :=
  ⟨fun k v h => postObject_lookup_mem cfg parse fmtDate pd mc fn hn k v h,
   fun h => postObject_content_absent cfg parse fmtDate pd mc fn h,
   ⟨_, rfl, rfl, rfl⟩⟩

/-- C10 witness: the amended theorem at the one-field object
`{url: "R"}`. -/
theorem claim_C10_amended_witness :
    (([("url", vStr "R")].map Prod.fst).Nodup) ∧
    ((∀ k v, lookupField [("url", vStr "R")] k = some v →
      lookupField (postObject cfgPlain parseMark fmtFixed [("url", vStr "R")]
        "hello" "a.md") k = some v) ∧
    (lastVal [("url", vStr "R")] "content" = none →
      lookupField (postObject cfgPlain parseMark fmtFixed [("url", vStr "R")]
        "hello" "a.md") "content" = some (vStr "hello")) ∧
    (∃ obj, (processPostFile cfgPlain fmSpoof parseMark fmtFixed (some "hello")
        "2024-05-06T00:00:00.000Z" "a.md").1 = some obj ∧
      lookupField obj "content" = some (vStr "SPOOF") ∧
      lookupField obj "title" = some (vStr "T"))) :=
  ⟨by simp,
   claim_C10_amended cfgPlain parseMark fmtFixed [("url", vStr "R")] "hello"
     "a.md" (by simp)⟩

end Blog
namespace Blog
open JsV

/-- When the frontmatter object carries no `html` key, the final `html`
field is the rendered markdown body. -/
theorem postObject_html_absent (cfg : ContentCfg)
    (parse : String → Except Unit String) (fmtDate : JsV → String)
    (pd : List (String × JsV)) (mc fn : String)
    (h : lastVal pd "html" = none) :
    lookupField (postObject cfg parse fmtDate pd mc fn) "html" =
      some (vStr (renderMarkdown parse mc)) := by
  unfold postObject
  dsimp only
  rw [mkObjLit_lookup, lastVal_append, h]
  rfl

/-- The subtraction comparator cannot order a pair strictly in both
directions. -/
theorem postsCmp_total (dateNum : JsV → Option Int)
    (a b : List (String × JsV)) (h : ¬postsCmp dateNum a b ≤ 0) :
    postsCmp dateNum b a ≤ 0 := by
  unfold postsCmp at h ⊢
  cases hA : dateNum ((lookupField a "date").getD vNull) <;>
    cases hB : dateNum ((lookupField b "date").getD vNull) <;>
    simp only [hA, hB] at h ⊢ <;> omega

/-- Inserting into an adjacently-sorted list keeps it adjacently sorted,
for any comparator that cannot reject a pair in both directions. -/
theorem insertByCmp_chain {α : Type} (cmp : α → α → Int)
    (htot : ∀ a b, ¬cmp a b ≤ 0 → cmp b a ≤ 0) (x : α) :
    ∀ l, List.Chain' (fun a b => cmp a b ≤ 0) l →
      List.Chain' (fun a b => cmp a b ≤ 0) (insertByCmp cmp x l) := by
  intro l
  induction l with
  | nil => intro _; simp [insertByCmp]
  | cons y ys ih =>
    intro h
    by_cases hxy : cmp x y ≤ 0
    · simp only [insertByCmp, if_pos hxy]
      exact List.chain'_cons.mpr ⟨hxy, h⟩
    · simp only [insertByCmp, if_neg hxy]
      have hyx := htot x y hxy
      cases ys with
      | nil =>
        simp only [insertByCmp]
        exact List.chain'_cons.mpr ⟨hyx, List.chain'_singleton x⟩
      | cons z zs =>
        have hzz : List.Chain' (fun a b => cmp a b ≤ 0) (z :: zs) :=
          (List.chain'_cons.mp h).2
        have hyz : cmp y z ≤ 0 := (List.chain'_cons.mp h).1
        have hrec := ih hzz
        by_cases hxz : cmp x z ≤ 0
        · simp only [insertByCmp, if_pos hxz] at hrec ⊢
          exact List.chain'_cons.mpr ⟨hyx, hrec⟩
        · simp only [insertByCmp, if_neg hxz] at hrec ⊢
          exact List.chain'_cons.mpr ⟨hyz, hrec⟩

/-- The insertion sort produces an adjacently-sorted list. -/
theorem sortByCmp_chain {α : Type} (cmp : α → α → Int)
    (htot : ∀ a b, ¬cmp a b ≤ 0 → cmp b a ≤ 0) :
    ∀ l : List α, List.Chain' (fun a b => cmp a b ≤ 0) (sortByCmp cmp l) := by
  intro l
  induction l with
  | nil => simp [sortByCmp]
  | cons a l ih =>
    simp only [sortByCmp, List.foldr_cons]
    simp only [sortByCmp] at ih
    exact insertByCmp_chain cmp htot a _ ih

/-- Insertion is a permutation action. -/
theorem insertByCmp_perm {α : Type} (cmp : α → α → Int) (x : α) :
    ∀ l, (insertByCmp cmp x l).Perm (x :: l) := by
  intro l
  induction l with
  | nil => exact List.Perm.refl _
  | cons y ys ih =>
    by_cases h : cmp x y ≤ 0
    · simp [insertByCmp, h]
    · simp only [insertByCmp, if_neg h]
      exact (ih.cons y).trans (List.Perm.swap x y ys)

/-- The sort returns a permutation of its input. -/
theorem sortByCmp_perm {α : Type} (cmp : α → α → Int) :
    ∀ l : List α, (sortByCmp cmp l).Perm l := by
  intro l
  induction l with
  | nil => exact List.Perm.refl _
  | cons a l ih =>
    simp only [sortByCmp, List.foldr_cons]
    simp only [sortByCmp] at ih
    exact (insertByCmp_perm cmp a _).trans (ih.cons a)

/-- An input in which every earlier element already compares `≤ 0` to
every later one - in particular, a run of ties in discovery order - is
returned unchanged: the sort is stable. -/
theorem sortByCmp_sorted_id {α : Type} (cmp : α → α → Int) :
    ∀ l : List α, l.Pairwise (fun a b => cmp a b ≤ 0) →
      sortByCmp cmp l = l := by
  intro l
  induction l with
  | nil => intro _; rfl
  | cons a l ih =>
    intro h
    have h1 := (List.pairwise_cons.mp h).1
    have h2 := ih (List.pairwise_cons.mp h).2
    simp only [sortByCmp, List.foldr_cons]
    simp only [sortByCmp] at h2
    rw [h2]
    cases l with
    | nil => rfl
    | cons y ys =>
      have hy := h1 y (by simp)
      simp [insertByCmp, hy]

end Blog
namespace Blog
open JsV

/-- C3 counterexample: a post whose markdown rendering fails is NOT
excluded - renderMarkdown catches the error and substitutes an error
paragraph, so the post is retained. Of the three files, only the
unreadable `c.md` is dropped; the render-failing `b.md` survives with
the substituted html. -/
theorem claim_C3_counterexample :
    (loadAllPosts cfgPlain fmByBody parseMark fmtFixed fsPosts mtimeFixed
      dateNumIso "posts" ["a.md", "b.md", "c.md"]).length = 2 ∧
    ∃ obj, (processPostFile cfgPlain fmByBody parseMark fmtFixed (some "BAD")
        "2024-05-06T00:00:00.000Z" "b.md").1 = some obj ∧
      lookupField obj "html" = some (vStr "<p>Error rendering content.</p>") :=
  ⟨rfl, _, rfl, rfl⟩

/-- C3 (amended): a post is excluded from the batch exactly when its file
read fails (the logged failure is not fatal to the batch); a post whose
markdown RENDERING fails is retained, its `html` replaced by the error
paragraph. The survivors are returned sorted by date descending in the
sense of the comparator (adjacent pairs compare `≤ 0`, i.e. each date is
at least the next; posts with unparseable dates compare as ties), the
output is a permutation of the valid posts in discovery order, and an
input already in sorted order - in particular any run of date ties - is
returned unchanged, so ties keep discovery order. Concretely, of
`a.md` (old), `b.md` (new, rendering fails) and `c.md` (unreadable), the
batch returns `b` then `a`. -/
theorem claim_C3_amended (cfg : ContentCfg)
    (fm : String → Option (JsV × String))
    (parse : String → Except Unit String) (fmtDate : JsV → String) :
    (∀ (readResult : Option String) (mtimeIso filename : String),
      ((processPostFile cfg fm parse fmtDate readResult mtimeIso
        filename).1 = none ↔ readResult = none)) ∧
    (∀ (content mtimeIso filename : String),
      (extractFrontmatter fm content).2.data.isEmpty = false →
      parse (extractFrontmatter fm content).2 = .error () →
      lastVal (postDataDefaults cfg (extractFrontmatter fm content).1
        mtimeIso filename).1 "html" = none →
      ∃ obj, (processPostFile cfg fm parse fmtDate (some content) mtimeIso
          filename).1 = some obj ∧
        lookupField obj "html" =
          some (vStr "<p>Error rendering content.</p>")) ∧
    (∀ (fsRead : String → Option String) (mtimeOf : String → String)
      (dateNum : JsV → Option Int) (postsDir : String)
      (files : List String),
      List.Chain' (fun a b => postsCmp dateNum a b ≤ 0)
        (loadAllPosts cfg fm parse fmtDate fsRead mtimeOf dateNum postsDir
          files)) ∧
    (∀ (dateNum : JsV → Option Int) (l : List (List (String × JsV))),
      (sortByCmp (postsCmp dateNum) l).Perm l ∧
      (l.Pairwise (fun a b => postsCmp dateNum a b ≤ 0) →
        sortByCmp (postsCmp dateNum) l = l)) ∧
    (loadAllPosts cfgPlain fmByBody parseMark fmtFixed fsPosts mtimeFixed
      dateNumIso "posts" ["a.md", "b.md", "c.md"]).map
        (fun p => lookupField p "title") =
      [some (vStr "B"), some (vStr "A")] := by
  refine ⟨?_, ?_, ?_, ?_, rfl⟩
  · intro r mtimeIso filename
    cases r <;> simp [processPostFile]
  · intro content mtimeIso filename h1 h2 h3
    refine ⟨_, rfl, ?_⟩
    rw [postObject_html_absent cfg parse fmtDate _ _ _ h3]
    simp [renderMarkdown, h1, h2]
  · intro fsRead mtimeOf dateNum postsDir files
    unfold loadAllPosts
    dsimp only
    exact sortByCmp_chain (postsCmp dateNum)
      (fun a b h => postsCmp_total dateNum a b h) _
  · intro dateNum l
    exact ⟨sortByCmp_perm (postsCmp dateNum) l,
      fun h => sortByCmp_sorted_id (postsCmp dateNum) l h⟩

/-- C3 witness: the amended theorem's render-failure branch at the
concrete fixtures, hypotheses discharged at the body "BAD". -/
theorem claim_C3_amended_witness :
    (extractFrontmatter fmByBody "BAD").2.data.isEmpty = false ∧
    parseMark (extractFrontmatter fmByBody "BAD").2 = .error () ∧
    lastVal (postDataDefaults cfgPlain (extractFrontmatter fmByBody "BAD").1
      "2024-05-06T00:00:00.000Z" "b.md").1 "html" = none ∧
    ∃ obj, (processPostFile cfgPlain fmByBody parseMark fmtFixed (some "BAD")
        "2024-05-06T00:00:00.000Z" "b.md").1 = some obj ∧
      lookupField obj "html" =
        some (vStr "<p>Error rendering content.</p>") :=
  ⟨rfl, rfl, rfl,
   (claim_C3_amended cfgPlain fmByBody parseMark fmtFixed).2.1 "BAD"
     "2024-05-06T00:00:00.000Z" "b.md" rfl rfl rfl⟩

end Blog
